import Mathlib

/-! The janitor command handler (`cmd/cli/handler_janitor.go`).

A shallow embedding of the handler: argument validation (`JanitorHandler.Args`),
the orchestration in `purge`, the routine wrapper `cleanup` and the executor
`cleanupRun`.

Stateful code is written as explicit state passing over a `World`: the store
the persister works on and the bytes written to standard output.  A Go `error`
result is an `Option GoError` (`none` is `nil`).  Instants and durations are
integers counting nanoseconds; a duration is an `int64` in the source, so the
one arithmetic operation on it (negation) wraps at 64 bits.
-/

namespace Janitor

/-! ## Flag names (the `const` block) -/

def KeepIfYounger : String := "keep-if-younger"
def AccessLifespan : String := "access-lifespan"
def RefreshLifespan : String := "refresh-lifespan"
def ConsentRequestLifespan : String := "consent-request-lifespan"
def Tokens : String := "tokens"
def Requests : String := "requests"
def GrantTypeJWTBearer : String := "grant-type-jwt-bearer"
def ReadFromEnv : String := "read-from-env"
def Config : String := "config"

/-! ## Library types the handler uses -/

/-- A `context.Context`, identified by a number. -/
structure Context where
  id : Nat
deriving DecidableEq, Repr

/-- A `time.Time` in UTC without monotonic reading, as nanoseconds since the epoch. -/
abbrev Time := Int

/-- A `time.Duration`: a count of nanoseconds, an `int64` in the source. -/
abbrev Duration := Int

def minInt64 : Int := -9223372036854775808
def maxInt64 : Int := 9223372036854775807

/-- Two's complement wrap-around of an integer into the `int64` range. -/
def wrapInt64 (x : Int) : Int := (x + 2 ^ 63) % 2 ^ 64 - 2 ^ 63

/-- Unary minus on a `time.Duration` (an `int64`). -/
def Duration.neg (d : Duration) : Duration := wrapInt64 (-d)

/-- The method `Time.Add`, on instants far from the ends of the representable range. -/
def Time.Add (t : Time) (d : Duration) : Time := t + d

/-- A Go `error` value, as far as the handler builds and inspects it:
`errorString` is what `errors.New` and `fmt.Errorf` return, `wrapped cause msg` is
`errors.Wrap(errorsx.WithStack(cause), msg)`. -/
inductive GoError where
  | errorString (msg : String)
  | wrapped (cause : GoError) (msg : String)
deriving DecidableEq, Repr

/-- The method `Error()`: the message of an error; a wrapped error prefixes its cause's. -/
def GoError.Error : GoError → String
  | .errorString msg => msg
  | .wrapped cause msg => msg ++ ": " ++ cause.Error

/-- The method `Unwrap()`: the error directly underneath, if any. -/
def GoError.Unwrap : GoError → Option GoError
  | .errorString _ => none
  | .wrapped cause _ => some cause

/-- The state a run acts on: the persisted store and what was written to standard output. -/
structure World (σ : Type) where
  store : σ
  stdout : String
deriving DecidableEq, Repr

/-- The effect of `fmt.Printf` with the already formatted text `s`. -/
def World.Printf {σ : Type} (w : World σ) (s : String) : World σ :=
  { w with stdout := w.stdout ++ s }

/-- A `*cobra.Command` after flag parsing: its usage text, its context and the
values of its flags, looked up by flag name. -/
structure Command where
  usage : String
  ctx : Context
  bools : String → Bool
  durations : String → Duration
  stringSlices : String → List String

def Command.UsageString (cmd : Command) : String := cmd.usage
def Command.Context (cmd : Command) : Context := cmd.ctx

def MustGetBool (cmd : Command) (name : String) : Bool := cmd.bools name
def MustGetDuration (cmd : Command) (name : String) : Duration := cmd.durations name
def MustGetStringSlice (cmd : Command) (name : String) : List String := cmd.stringSlices name

/-- Modelled from the spec: the configuration key constants `config.KeyAccessTokenLifespan`,
`config.KeyRefreshTokenLifespan`, `config.KeyConsentRequestMaxAge` and `config.KeyDSN` of
package `driver/config`, whose declarations are not part of the handler's file. -/
inductive ConfigKey where
  | KeyAccessTokenLifespan
  | KeyRefreshTokenLifespan
  | KeyConsentRequestMaxAge
  | KeyDSN
deriving DecidableEq, Repr

/-- A value handed to `configx.WithValue`. -/
inductive ConfigValue where
  | duration (d : Duration)
  | string (s : String)
deriving DecidableEq, Repr

/-- A `configx.OptionModifier` as built by `purge`. -/
inductive OptionModifier where
  | WithFlags
  | SkipValidation
  | WithValue (key : ConfigKey) (value : ConfigValue)
deriving DecidableEq, Repr

/-- A `driver.OptionsModifier` as built by `purge`. -/
inductive OptionsModifier where
  | DisableValidation
  | DisablePreloading
  | WithOptions (co : List OptionModifier)

/-- The four flush operations of the persister; each acts on the store only. -/
structure Persister (σ : Type) where
  FlushInactiveAccessTokens : Context → Time → σ → σ × Option GoError
  FlushInactiveRefreshTokens : Context → Time → σ → σ × Option GoError
  FlushInactiveLoginConsentRequests : Context → Time → σ → σ × Option GoError
  FlushInactiveGrants : Context → Time → σ → σ × Option GoError

/-- A `driver.Registry`, as far as `purge` consults it. -/
structure Registry (σ : Type) where
  DSN : String
  Init : Context → σ → σ × Option GoError
  Persister : Persister σ

/-- What one invocation of `purge` reads from its surroundings: the clock, the order
in which the runtime iterates over the `keys` map, and `driver.New`. -/
structure Env (σ : Type) where
  now : Time
  keysOrder : List (String × ConfigKey)
  New : Context → List OptionsModifier → Registry σ

/-! ## The handler -/

/-- The method `JanitorHandler.Args`. -/
def Args {σ : Type} (cmd : Command) (args : List String) (w : World σ) :
    World σ × Option GoError :=
  if args.length == 0 &&
      !MustGetBool cmd ReadFromEnv &&
      (MustGetStringSlice cmd Config).length == 0 then
    (w.Printf (cmd.UsageString ++ "\n"),
      some (.errorString
        ("A DSN is required as a positional argument when not passing any of the following flags:"
          ++ "\n" ++ "- Using the environment variable with flag -e, --read-from-env"
          ++ "\n" ++ "- Using the config file with flag -c, --config" ++ "\n")))
  else if !MustGetBool cmd Tokens && !MustGetBool cmd Requests &&
      !MustGetBool cmd GrantTypeJWTBearer then
    (w, some (.errorString
      (cmd.UsageString ++ "\nJanitor requires at least --" ++ Tokens ++ " or --" ++ Requests
        ++ " or --" ++ GrantTypeJWTBearer ++ " to be set\n")))
  else
    (w, none)

/-- The type `cleanupRoutine`: a function of a context and a cutoff returning an error,
acting on the world. -/
abbrev cleanupRoutine (σ : Type) := Context → Time → World σ → World σ × Option GoError

/-- The function `cleanup`: wraps a routine with the success line and the error prefix. -/
def cleanup {σ : Type} (cr : cleanupRoutine σ) (routineName : String) : cleanupRoutine σ :=
  fun ctx notAfter w =>
    match cr ctx notAfter w with
    | (w1, some err) =>
      (w1, some (.wrapped err ("Could not cleanup inactive " ++ routineName)))
    | (w1, none) =>
      (w1.Printf ("Successfully completed Janitor run on " ++ routineName ++ "\n"), none)

/-- The `for _, r := range routines` loop of `cleanupRun`. -/
def cleanupRunLoop {σ : Type} (ctx : Context) (notAfter : Time) :
    List (cleanupRoutine σ) → World σ → World σ × Option GoError
  | [], w => (w, none)
  | r :: rest, w =>
    match r ctx notAfter w with
    | (w1, some err) => (w1, some err)
    | (w1, none) => cleanupRunLoop ctx notAfter rest w1

/-- The function `cleanupRun`. -/
def cleanupRun {σ : Type} (ctx : Context) (notAfter : Time) (routines : List (cleanupRoutine σ))
    (w : World σ) : World σ × Option GoError :=
  if routines.length == 0 then
    (w, some (.errorString "clean up run received 0 routines"))
  else
    cleanupRunLoop ctx notAfter routines w

/-- The entries of the map `keys` in `purge`. -/
def keys : List (String × ConfigKey) :=
  [(AccessLifespan, .KeyAccessTokenLifespan),
   (RefreshLifespan, .KeyRefreshTokenLifespan),
   (ConsentRequestLifespan, .KeyConsentRequestMaxAge)]

/-- Lines 64-79 of `purge`: the option list `co` after the loop over `keys`, the
entries being visited in the order `order`. -/
def lifespanOptions (order : List (String × ConfigKey)) (cmd : Command) : List OptionModifier :=
  order.foldl
    (fun co kv =>
      let x := MustGetDuration cmd kv.1
      if x > 0 then co ++ [OptionModifier.WithValue kv.2 (.duration x)] else co)
    [OptionModifier.WithFlags, OptionModifier.SkipValidation]

/-- Lines 81-84 of `purge`: the cutoff `notAfter`, `now` being `time.Now().UTC()`. -/
def cutoff (now : Time) (cmd : Command) : Time :=
  let notAfter := now
  let keepYounger := MustGetDuration cmd KeepIfYounger
  if keepYounger > 0 then notAfter.Add (Duration.neg keepYounger) else notAfter

/-- A flush operation of the persister as a routine on the world: it acts on the store
and leaves standard output alone. -/
def onStore {σ : Type} (f : Context → Time → σ → σ × Option GoError) : cleanupRoutine σ :=
  fun ctx notAfter w =>
    match f ctx notAfter w.store with
    | (s, err) => ({ w with store := s }, err)

/-- Lines 111-123 of `purge`: the routine list handed to `cleanupRun`. -/
def selectRoutines {σ : Type} (p : Persister σ) (cmd : Command) : List (cleanupRoutine σ) :=
  let routines : List (cleanupRoutine σ) := []
  let routines :=
    if MustGetBool cmd Tokens then
      (routines ++ [cleanup (onStore p.FlushInactiveAccessTokens) "access tokens"])
        ++ [cleanup (onStore p.FlushInactiveRefreshTokens) "refresh tokens"]
    else routines
  let routines :=
    if MustGetBool cmd Requests then
      routines ++ [cleanup (onStore p.FlushInactiveLoginConsentRequests) "login-consent requests"]
    else routines
  let routines :=
    if MustGetBool cmd GrantTypeJWTBearer then
      routines ++ [cleanup (onStore p.FlushInactiveGrants) "grant types jwt bearer"]
    else routines
  routines

/-- The function `purge`.  `Except.error` stands for a run-time panic (the index
expression `args[0]` on an empty slice). -/
def purge {σ : Type} (env : Env σ) (cmd : Command) (args : List String) (w : World σ) :
    Except String (World σ × Option GoError) :=
  let co := lifespanOptions env.keysOrder cmd
  let notAfter := cutoff env.now cmd
  let coDSN : Except String (List OptionModifier) :=
    if !MustGetBool cmd ReadFromEnv && (MustGetStringSlice cmd Config).length == 0 then
      match args with
      | [] => .error "index out of range [0] with length 0"
      | a :: _ => .ok (co ++ [OptionModifier.WithValue .KeyDSN (.string a)])
    else .ok co
  match coDSN with
  | .error p => .error p
  | .ok co =>
    let opts : List OptionsModifier :=
      [OptionsModifier.DisableValidation, OptionsModifier.DisablePreloading,
        OptionsModifier.WithOptions co]
    let d := env.New cmd.Context opts
    if d.DSN.length == 0 then
      .ok (w, some (.errorString
        (cmd.UsageString ++ "\n" ++ "When using flag -e, environment variable DSN must be set."
          ++ "\n" ++ "When using flag -c, the dsn property should be set." ++ "\n")))
    else
      match d.Init cmd.Context w.store with
      | (s, some _) =>
        .ok ({ w with store := s }, some (.errorString
          (cmd.UsageString ++ "\n"
            ++ "Janitor can only be executed against a SQL-compatible driver but DSN is not a SQL source."
            ++ "\n")))
      | (s, none) =>
        let p := d.Persister
        .ok (cleanupRun cmd.Context notAfter (selectRoutines p cmd) { w with store := s })

/-- Lines 64-88 of `purge`: the option list `co` as handed to `driver.WithOptions`, the
map `keys` being visited in the order `order`.  `Except.error` is the run-time panic of
the index expression `args[0]` on an empty slice. -/
def configOptions (order : List (String × ConfigKey)) (cmd : Command) (args : List String) :
    Except String (List OptionModifier) :=
  let co := lifespanOptions order cmd
  if !MustGetBool cmd ReadFromEnv && (MustGetStringSlice cmd Config).length == 0 then
    match args with
    | [] => .error "index out of range [0] with length 0"
    | a :: _ => .ok (co ++ [OptionModifier.WithValue .KeyDSN (.string a)])
  else .ok co

/-- Lines 90-96 of `purge`: the registry `d` that `driver.New` returns for the options. -/
def resolve {σ : Type} (env : Env σ) (cmd : Command) (co : List OptionModifier) : Registry σ :=
  env.New cmd.Context
    [OptionsModifier.DisableValidation, OptionsModifier.DisablePreloading,
      OptionsModifier.WithOptions co]

/-- Lines 98-125 of `purge`: what `purge` does once it holds the registry `d` and the
cutoff `notAfter`. -/
def purgeFrom {σ : Type} (d : Registry σ) (notAfter : Time) (cmd : Command) (w : World σ) :
    World σ × Option GoError :=
  if d.DSN.length == 0 then
    (w, some (.errorString
      (cmd.UsageString ++ "\n" ++ "When using flag -e, environment variable DSN must be set."
        ++ "\n" ++ "When using flag -c, the dsn property should be set." ++ "\n")))
  else
    match d.Init cmd.Context w.store with
    | (s, some _) =>
      ({ w with store := s }, some (.errorString
        (cmd.UsageString ++ "\n"
          ++ "Janitor can only be executed against a SQL-compatible driver but DSN is not a SQL source."
          ++ "\n")))
    | (s, none) =>
      let p := d.Persister
      cleanupRun cmd.Context notAfter (selectRoutines p cmd) { w with store := s }

/-! ## Observing invocations

A routine is a function, so whether and how often it is invoked is observed by
wrapping it: `probe k r` behaves as `r` and records the call in a log kept next
to the store. -/

/-- One recorded invocation: the position of the routine in the list and the
context and cutoff it received. -/
structure Call where
  index : Nat
  ctx : Context
  notAfter : Time
deriving DecidableEq, Repr

/-- The world `w` with the call log `log` kept next to its store. -/
def World.attach {σ : Type} (w : World σ) (log : List Call) : World (σ × List Call) :=
  { store := (w.store, log), stdout := w.stdout }

/-- The world without its call log. -/
def World.detach {σ : Type} (w : World (σ × List Call)) : World σ :=
  { store := w.store.1, stdout := w.stdout }

/-- The routine `r`, recording each of its invocations under the index `k`. -/
def probe {σ : Type} (k : Nat) (r : cleanupRoutine σ) : cleanupRoutine (σ × List Call) :=
  fun ctx notAfter w =>
    match r ctx notAfter w.detach with
    | (w1, err) => (w1.attach (w.store.2 ++ [Call.mk k ctx notAfter]), err)

/-- Every routine of a list probed under its position, counted from `k`. -/
def probes {σ : Type} : Nat → List (cleanupRoutine σ) → List (cleanupRoutine (σ × List Call))
  | _, [] => []
  | k, r :: rs => probe k r :: probes (k + 1) rs

/-- The log of `n` invocations, of the routines at positions `k`, `k+1`, ..., once each
and in this order, all with context `ctx` and cutoff `notAfter`. -/
def callsFrom (ctx : Context) (notAfter : Time) (k n : Nat) : List Call :=
  (List.range' k n).map (fun i => Call.mk i ctx notAfter)

/-! ## Specification-side definitions -/

/-- The world after every routine of the list has been invoked once, in list order,
with context `ctx` and cutoff `notAfter`. -/
def afterAll {σ : Type} (ctx : Context) (notAfter : Time) :
    List (cleanupRoutine σ) → World σ → World σ
  | [], w => w
  | r :: rs, w => afterAll ctx notAfter rs (r ctx notAfter w).1

/-- Every routine of the list returns no error when the routines are invoked one after
the other, in list order, starting from the world `w`. -/
def succeedAll {σ : Type} (ctx : Context) (notAfter : Time) :
    List (cleanupRoutine σ) → World σ → Bool
  | [], _ => true
  | r :: rs, w => (r ctx notAfter w).2.isNone && succeedAll ctx notAfter rs (r ctx notAfter w).1

/-- The `CleanupCategory` of the data model: the four purge domains. -/
inductive CleanupCategory where
  | AccessTokens
  | RefreshTokens
  | LoginConsentRequests
  | JWTBearerGrants
deriving DecidableEq, Repr

/-- The fixed execution order of the categories. -/
def fixedOrder : List CleanupCategory :=
  [.AccessTokens, .RefreshTokens, .LoginConsentRequests, .JWTBearerGrants]

/-- The selector flag a category answers to: both token categories to `tokens`. -/
def CleanupCategory.selectedBy (tokens requests grantTypeJWTBearer : Bool) :
    CleanupCategory → Bool
  | .AccessTokens => tokens
  | .RefreshTokens => tokens
  | .LoginConsentRequests => requests
  | .JWTBearerGrants => grantTypeJWTBearer

/-- The fixed order restricted to the selected set. -/
def selectedCategories (tokens requests grantTypeJWTBearer : Bool) : List CleanupCategory :=
  fixedOrder.filter (CleanupCategory.selectedBy tokens requests grantTypeJWTBearer)

/-- The name under which a category's routine reports. -/
def CleanupCategory.routineName : CleanupCategory → String
  | .AccessTokens => "access tokens"
  | .RefreshTokens => "refresh tokens"
  | .LoginConsentRequests => "login-consent requests"
  | .JWTBearerGrants => "grant types jwt bearer"

/-- The flush operation of the persister that belongs to a category. -/
def CleanupCategory.flush {σ : Type} (p : Persister σ) :
    CleanupCategory → Context → Time → σ → σ × Option GoError
  | .AccessTokens => p.FlushInactiveAccessTokens
  | .RefreshTokens => p.FlushInactiveRefreshTokens
  | .LoginConsentRequests => p.FlushInactiveLoginConsentRequests
  | .JWTBearerGrants => p.FlushInactiveGrants

/-- The routine of a category: its flush operation, wrapped by `cleanup` under its name. -/
def CleanupCategory.routine {σ : Type} (p : Persister σ) (c : CleanupCategory) :
    cleanupRoutine σ :=
  cleanup (onStore (c.flush p)) c.routineName

/-- The categories that complete when the flush operations of `cs` are run in order
from the store `s`: those before the first one whose flush returns an error. -/
def completed {σ : Type} (p : Persister σ) (ctx : Context) (notAfter : Time) :
    List CleanupCategory → σ → List CleanupCategory
  | [], _ => []
  | c :: cs, s =>
    match c.flush p ctx notAfter s with
    | (s1, none) => c :: completed p ctx notAfter cs s1
    | (_, some _) => []

/-- The first category whose flush returns an error when the flush operations of `cs`
are run in order from the store `s`, with that error; `none` when all succeed. -/
def firstFailure {σ : Type} (p : Persister σ) (ctx : Context) (notAfter : Time) :
    List CleanupCategory → σ → Option (CleanupCategory × GoError)
  | [], _ => none
  | c :: cs, s =>
    match c.flush p ctx notAfter s with
    | (s1, none) => firstFailure p ctx notAfter cs s1
    | (_, some e) => some (c, e)

/-- The store after the flush operations of `cs` have been run in order from `s` up to
and including the first one that returns an error. -/
def storeAfter {σ : Type} (p : Persister σ) (ctx : Context) (notAfter : Time) :
    List CleanupCategory → σ → σ
  | [], s => s
  | c :: cs, s =>
    match c.flush p ctx notAfter s with
    | (s1, none) => storeAfter p ctx notAfter cs s1
    | (s1, some _) => s1

/-- The success line of a category. -/
def successLine (c : CleanupCategory) : String :=
  "Successfully completed Janitor run on " ++ c.routineName ++ "\n"

/-- The success lines of a list of categories, one after the other. -/
def successLines : List CleanupCategory → String
  | [] => ""
  | c :: cs => successLine c ++ successLines cs

/-- The persister `p`, recording next to the store which flush operations ran. -/
def Persister.recording {σ : Type} (p : Persister σ) : Persister (σ × List CleanupCategory) :=
  { FlushInactiveAccessTokens := fun ctx notAfter s =>
      (((p.FlushInactiveAccessTokens ctx notAfter s.1).1, s.2 ++ [.AccessTokens]),
        (p.FlushInactiveAccessTokens ctx notAfter s.1).2)
    FlushInactiveRefreshTokens := fun ctx notAfter s =>
      (((p.FlushInactiveRefreshTokens ctx notAfter s.1).1, s.2 ++ [.RefreshTokens]),
        (p.FlushInactiveRefreshTokens ctx notAfter s.1).2)
    FlushInactiveLoginConsentRequests := fun ctx notAfter s =>
      (((p.FlushInactiveLoginConsentRequests ctx notAfter s.1).1,
          s.2 ++ [.LoginConsentRequests]),
        (p.FlushInactiveLoginConsentRequests ctx notAfter s.1).2)
    FlushInactiveGrants := fun ctx notAfter s =>
      (((p.FlushInactiveGrants ctx notAfter s.1).1, s.2 ++ [.JWTBearerGrants]),
        (p.FlushInactiveGrants ctx notAfter s.1).2) }

/-- The registry `d` with a recording persister; `Init` leaves the record alone. -/
def Registry.recording {σ : Type} (d : Registry σ) : Registry (σ × List CleanupCategory) :=
  { DSN := d.DSN
    Init := fun ctx s => (((d.Init ctx s.1).1, s.2), (d.Init ctx s.1).2)
    Persister := d.Persister.recording }

/-- The surroundings `env` with `driver.New` returning recording registries. -/
def Env.recording {σ : Type} (env : Env σ) : Env (σ × List CleanupCategory) :=
  { now := env.now
    keysOrder := env.keysOrder
    New := fun ctx opts => (env.New ctx opts).recording }

/-- The world `w` with an empty record of flush operations next to its store. -/
def World.unrecorded {σ : Type} (w : World σ) : World (σ × List CleanupCategory) :=
  { store := (w.store, []), stdout := w.stdout }

/-- One observed call of a flush operation: its category and the context and cutoff it
received. -/
structure FlushCall where
  category : CleanupCategory
  ctx : Context
  notAfter : Time
deriving DecidableEq, Repr

/-- The persister `p`, noting next to the store every call of a flush operation with
the arguments it received. -/
def Persister.observing {σ : Type} (p : Persister σ) : Persister (σ × List FlushCall) :=
  { FlushInactiveAccessTokens := fun ctx notAfter s =>
      (((p.FlushInactiveAccessTokens ctx notAfter s.1).1,
          s.2 ++ [FlushCall.mk .AccessTokens ctx notAfter]),
        (p.FlushInactiveAccessTokens ctx notAfter s.1).2)
    FlushInactiveRefreshTokens := fun ctx notAfter s =>
      (((p.FlushInactiveRefreshTokens ctx notAfter s.1).1,
          s.2 ++ [FlushCall.mk .RefreshTokens ctx notAfter]),
        (p.FlushInactiveRefreshTokens ctx notAfter s.1).2)
    FlushInactiveLoginConsentRequests := fun ctx notAfter s =>
      (((p.FlushInactiveLoginConsentRequests ctx notAfter s.1).1,
          s.2 ++ [FlushCall.mk .LoginConsentRequests ctx notAfter]),
        (p.FlushInactiveLoginConsentRequests ctx notAfter s.1).2)
    FlushInactiveGrants := fun ctx notAfter s =>
      (((p.FlushInactiveGrants ctx notAfter s.1).1,
          s.2 ++ [FlushCall.mk .JWTBearerGrants ctx notAfter]),
        (p.FlushInactiveGrants ctx notAfter s.1).2) }

/-- The registry `d` with an observing persister; `Init` leaves the notes alone. -/
def Registry.observing {σ : Type} (d : Registry σ) : Registry (σ × List FlushCall) :=
  { DSN := d.DSN
    Init := fun ctx s => (((d.Init ctx s.1).1, s.2), (d.Init ctx s.1).2)
    Persister := d.Persister.observing }

/-- The surroundings `env` with `driver.New` returning observing registries. -/
def Env.observing {σ : Type} (env : Env σ) : Env (σ × List FlushCall) :=
  { now := env.now
    keysOrder := env.keysOrder
    New := fun ctx opts => (env.New ctx opts).observing }

/-- The world `w` with no flush call noted yet. -/
def World.unobserved {σ : Type} (w : World σ) : World (σ × List FlushCall) :=
  { store := (w.store, []), stdout := w.stdout }

/-- The categories whose flush operation is invoked when the flush operations of `cs`
are run in order from the store `s`: the ones that complete and the first one that
fails. -/
def attempted {σ : Type} (p : Persister σ) (ctx : Context) (notAfter : Time) :
    List CleanupCategory → σ → List CleanupCategory
  | [], _ => []
  | c :: cs, s =>
    match c.flush p ctx notAfter s with
    | (s1, none) => c :: attempted p ctx notAfter cs s1
    | (_, some _) => [c]

/-- A persister whose flush operations do nothing and succeed. -/
def idle {σ : Type} : Persister σ :=
  { FlushInactiveAccessTokens := fun _ _ s => (s, none)
    FlushInactiveRefreshTokens := fun _ _ s => (s, none)
    FlushInactiveLoginConsentRequests := fun _ _ s => (s, none)
    FlushInactiveGrants := fun _ _ s => (s, none) }

/-- Surroundings that show what `driver.New` receives: the store is the list of the
option lists passed to `driver.New`, noted when the registry is initialised; the DSN is
never empty, `Init` succeeds and the persister is idle. -/
def spyEnv (order : List (String × ConfigKey)) (now : Time) :
    Env (List (List OptionsModifier)) :=
  { now := now
    keysOrder := order
    New := fun _ opts =>
      { DSN := "spy"
        Init := fun _ s => (s ++ [opts], none)
        Persister := idle } }

/-- The flush operation of category `c` has nothing left to do on the store `s`: it
returns no error and changes nothing. -/
def Settled {σ : Type} (p : Persister σ) (ctx : Context) (notAfter : Time)
    (c : CleanupCategory) (s : σ) : Prop :=
  c.flush p ctx notAfter s = (s, none)

/-- Each of the four flush operations is idempotent for the cutoff: after it has
succeeded, flushing again returns no error and changes nothing. -/
def Idempotent {σ : Type} (p : Persister σ) (ctx : Context) (notAfter : Time) : Prop :=
  ∀ (c : CleanupCategory) (s : σ),
    (c.flush p ctx notAfter s).2 = none → Settled p ctx notAfter c (c.flush p ctx notAfter s).1

/-- The categories do not feed each other: a flush operation that has nothing left to
do still has nothing to do after any flush operation has succeeded. -/
def Independent {σ : Type} (p : Persister σ) (ctx : Context) (notAfter : Time) : Prop :=
  ∀ (c c1 : CleanupCategory) (s : σ),
    Settled p ctx notAfter c s → (c1.flush p ctx notAfter s).2 = none →
      Settled p ctx notAfter c (c1.flush p ctx notAfter s).1

/-- The cutoff of the `RetentionCalculator`: `now`, moved back by the keep-if-younger
duration `d` when `d` is positive. -/
def retentionCutoff (now : Time) (d : Duration) : Time :=
  if 0 < d then now - d else now

/-- The string `s` contains `substr` (`strings.Contains`, as `require.Contains` tests it). -/
def Contains (s substr : String) : Prop := substr.data <:+: s.data

instance (s substr : String) : Decidable (Contains s substr) := by
  unfold Contains
  infer_instance

/-! ## Concrete inputs -/

/-- A command whose flags are all unset and whose usage text is `usage`. -/
def bareCommand (usage : String) : Command :=
  { usage := usage, ctx := ⟨0⟩, bools := fun _ => false, durations := fun _ => 0,
    stringSlices := fun _ => [] }

/-- The command `cmd` with the keep-if-younger duration `d`. -/
def withKeepIfYounger (cmd : Command) (d : Duration) : Command :=
  { cmd with durations := fun name => if name = KeepIfYounger then d else cmd.durations name }

/-- The command `cmd` with the three selector flags set as given. -/
def withSelectors (cmd : Command) (tokens requests grantTypeJWTBearer : Bool) : Command :=
  { cmd with bools := fun name =>
      if name = Tokens then tokens
      else if name = Requests then requests
      else if name = GrantTypeJWTBearer then grantTypeJWTBearer
      else cmd.bools name }

/-- The command `cmd` with the three lifespan durations set as given. -/
def withLifespans (cmd : Command) (access refresh consentRequest : Duration) : Command :=
  { cmd with durations := fun name =>
      if name = AccessLifespan then access
      else if name = RefreshLifespan then refresh
      else if name = ConsentRequestLifespan then consentRequest
      else cmd.durations name }

/-- One possible iteration order over the map `keys`, different from the order of
declaration. -/
def shuffledKeys : List (String × ConfigKey) :=
  [(ConsentRequestLifespan, .KeyConsentRequestMaxAge),
   (AccessLifespan, .KeyAccessTokenLifespan),
   (RefreshLifespan, .KeyRefreshTokenLifespan)]

/-- A persister over a store that records which flush operations ran: every flush
appends its name to the store; the refresh-token flush then fails with a storage error,
the other three succeed. -/
def refreshFailing : Persister (List String) :=
  { FlushInactiveAccessTokens := fun _ _ s => (s ++ ["FlushInactiveAccessTokens"], none)
    FlushInactiveRefreshTokens := fun _ _ s =>
      (s ++ ["FlushInactiveRefreshTokens"], some (.errorString "storage error"))
    FlushInactiveLoginConsentRequests := fun _ _ s =>
      (s ++ ["FlushInactiveLoginConsentRequests"], none)
    FlushInactiveGrants := fun _ _ s => (s ++ ["FlushInactiveGrants"], none) }

/-- The command `cmd` with the flag read-from-env set. -/
def withReadFromEnv (cmd : Command) : Command :=
  { cmd with bools := fun name => if name = ReadFromEnv then true else cmd.bools name }

/-- The DSN among the options given to `driver.New`: the string injected under `KeyDSN`,
the empty string when there is none. -/
def dsnOf : List OptionsModifier → String
  | [] => ""
  | .WithOptions co :: rest =>
    match co.filterMap (fun o =>
        match o with
        | .WithValue .KeyDSN (.string a) => some a
        | _ => none) with
    | a :: _ => a
    | [] => dsnOf rest
  | _ :: rest => dsnOf rest

/-- Surroundings for concrete runs: the clock at 1000, the map visited in the order of
declaration, and a `driver.New` whose registry takes its DSN from the options, whose
`Init` fails for the DSN "memory" (not a SQL source) and otherwise records itself in
the store, and whose persister is `refreshFailing`. -/
def sampleEnv : Env (List String) :=
  { now := 1000
    keysOrder := keys
    New := fun _ opts =>
      { DSN := dsnOf opts
        Init := fun _ s =>
          if dsnOf opts = "memory" then (s, some (.errorString "not a SQL source"))
          else (s ++ ["Init"], none)
        Persister := refreshFailing } }

/-- A persister over a store of four row counts, one per category: every flush removes
all rows of its own category and succeeds. -/
def clearing : Persister (Nat × Nat × Nat × Nat) :=
  { FlushInactiveAccessTokens := fun _ _ s => ((0, s.2.1, s.2.2.1, s.2.2.2), none)
    FlushInactiveRefreshTokens := fun _ _ s => ((s.1, 0, s.2.2.1, s.2.2.2), none)
    FlushInactiveLoginConsentRequests := fun _ _ s => ((s.1, s.2.1, 0, s.2.2.2), none)
    FlushInactiveGrants := fun _ _ s => ((s.1, s.2.1, s.2.2.1, 0), none) }

/-- Surroundings for concrete runs that succeed: as `sampleEnv`, over a store of four
row counts and with the persister `clearing`. -/
def clearingEnv : Env (Nat × Nat × Nat × Nat) :=
  { now := 1000
    keysOrder := shuffledKeys
    New := fun _ opts =>
      { DSN := dsnOf opts
        Init := fun _ s => (s, none)
        Persister := clearing } }

/-- A persister over a store of two bits, "an access token is present" and "its refresh
token is present": the access-token flush removes the access token once its refresh
token is gone, the refresh-token flush removes the refresh token; the other two do
nothing.  Every flush succeeds. -/
def orphaning : Persister (Bool × Bool) :=
  { FlushInactiveAccessTokens := fun _ _ s => ((s.1 && s.2, s.2), none)
    FlushInactiveRefreshTokens := fun _ _ s => ((s.1, false), none)
    FlushInactiveLoginConsentRequests := fun _ _ s => (s, none)
    FlushInactiveGrants := fun _ _ s => (s, none) }

/-- A routine that adds `n` to a numeric store and then returns the error `msg`. -/
def partialRoutine (n : Nat) (msg : String) : cleanupRoutine Nat :=
  fun _ _ w => ({ w with store := w.store + n }, some (.errorString msg))

/-- A routine that adds `n` to a numeric store and returns no error. -/
def bumpRoutine (n : Nat) : cleanupRoutine Nat :=
  fun _ _ w => ({ w with store := w.store + n }, none)

/-- A routine that leaves the world alone and returns the error `msg`. -/
def failRoutine (msg : String) : cleanupRoutine Nat :=
  fun _ _ w => (w, some (.errorString msg))

/-! ## Theorems -/

theorem detach_attach {σ : Type} (w : World σ) (log : List Call) : (w.attach log).detach = w :=
  rfl

theorem probe_attach {σ : Type} (k : Nat) (r : cleanupRoutine σ) (ctx : Context) (na : Time)
    (w : World σ) (log : List Call) :
    probe k r ctx na (w.attach log) =
      ((r ctx na w).1.attach (log ++ [Call.mk k ctx na]), (r ctx na w).2) := by
  rfl

theorem callsFrom_succ (ctx : Context) (na : Time) (k n : Nat) :
    callsFrom ctx na k (n + 1) = Call.mk k ctx na :: callsFrom ctx na (k + 1) n := by
  simp [callsFrom, List.range'_succ]

/-- The loop stops at the first failing routine: the routines before it have run, it has
run, and its error is returned. -/
theorem loop_fail {σ : Type} (ctx : Context) (na : Time) (post : List (cleanupRoutine σ))
    (r : cleanupRoutine σ) (e : GoError) :
    ∀ (pre : List (cleanupRoutine σ)) (w : World σ),
      succeedAll ctx na pre w = true →
      (r ctx na (afterAll ctx na pre w)).2 = some e →
      cleanupRunLoop ctx na (pre ++ r :: post) w =
        ((r ctx na (afterAll ctx na pre w)).1, some e) := by
  intro pre
  induction pre with
  | nil =>
    intro w _ hr
    simp only [afterAll] at hr
    simp only [List.nil_append, cleanupRunLoop, afterAll]
    rcases hrw : r ctx na w with ⟨w1, oe⟩
    rw [hrw] at hr
    simp only at hr
    subst hr
    rfl
  | cons q qs ih =>
    intro w hpre hr
    simp only [succeedAll, Bool.and_eq_true, Option.isNone_iff_eq_none] at hpre
    simp only [afterAll] at hr
    simp only [List.cons_append, cleanupRunLoop, afterAll]
    rcases hqw : q ctx na w with ⟨w1, oe⟩
    rw [hqw] at hpre hr
    simp only at hpre hr
    obtain ⟨h1, h2⟩ := hpre
    subst h1
    exact ih w1 h2 hr

/-- The probed loop stops at the first failing routine, having logged exactly the calls
of the routines up to and including it. -/
theorem loop_probes_fail {σ : Type} (ctx : Context) (na : Time) (post : List (cleanupRoutine σ))
    (r : cleanupRoutine σ) (e : GoError) :
    ∀ (pre : List (cleanupRoutine σ)) (w : World σ) (k : Nat) (log : List Call),
      succeedAll ctx na pre w = true →
      (r ctx na (afterAll ctx na pre w)).2 = some e →
      cleanupRunLoop ctx na (probes k (pre ++ r :: post)) (w.attach log) =
        ((r ctx na (afterAll ctx na pre w)).1.attach
          (log ++ callsFrom ctx na k (pre.length + 1)), some e) := by
  intro pre
  induction pre with
  | nil =>
    intro w k log _ hr
    simp only [afterAll] at hr
    simp only [List.nil_append, probes, cleanupRunLoop, afterAll, probe_attach, hr,
      List.length_nil, Nat.zero_add]
    simp [callsFrom]
  | cons q qs ih =>
    intro w k log hpre hr
    simp only [succeedAll, Bool.and_eq_true, Option.isNone_iff_eq_none] at hpre
    simp only [afterAll] at hr
    obtain ⟨h1, h2⟩ := hpre
    simp only [List.cons_append, probes, cleanupRunLoop, afterAll, probe_attach, h1,
      List.length_cons, List.append_eq]
    rw [ih (q ctx na w).1 (k + 1) (log ++ [Call.mk k ctx na]) h2 hr]
    simp [callsFrom_succ]

theorem probes_length {σ : Type} (rs : List (cleanupRoutine σ)) :
    ∀ k : Nat, (probes k rs).length = rs.length := by
  induction rs with
  | nil => intro k; rfl
  | cons r rs ih => intro k; simp [probes, ih]

/-- The loop returns no error exactly when every routine succeeds in turn. -/
theorem loop_ok_iff {σ : Type} (ctx : Context) (na : Time) :
    ∀ (rs : List (cleanupRoutine σ)) (w : World σ),
      (cleanupRunLoop ctx na rs w).2 = none ↔ succeedAll ctx na rs w = true := by
  intro rs
  induction rs with
  | nil => intro w; simp [cleanupRunLoop, succeedAll]
  | cons r rs ih =>
    intro w
    simp only [cleanupRunLoop, succeedAll, Bool.and_eq_true, Option.isNone_iff_eq_none]
    rcases hrw : r ctx na w with ⟨w1, oe⟩
    cases oe with
    | none => simpa using ih w1
    | some err => simp

/-- When every routine succeeds the loop has run them all, once each, in order. -/
theorem loop_ok {σ : Type} (ctx : Context) (na : Time) :
    ∀ (rs : List (cleanupRoutine σ)) (w : World σ),
      succeedAll ctx na rs w = true →
      cleanupRunLoop ctx na rs w = (afterAll ctx na rs w, none) := by
  intro rs
  induction rs with
  | nil => intro w _; rfl
  | cons r rs ih =>
    intro w h
    simp only [succeedAll, Bool.and_eq_true, Option.isNone_iff_eq_none] at h
    simp only [cleanupRunLoop, afterAll]
    rcases hrw : r ctx na w with ⟨w1, oe⟩
    rw [hrw] at h
    obtain ⟨h1, h2⟩ := h
    simp only at h1 h2
    subst h1
    exact ih w1 h2

/-- When every routine succeeds the probed loop has logged one call per routine. -/
theorem loop_probes_ok {σ : Type} (ctx : Context) (na : Time) :
    ∀ (rs : List (cleanupRoutine σ)) (w : World σ) (k : Nat) (log : List Call),
      succeedAll ctx na rs w = true →
      cleanupRunLoop ctx na (probes k rs) (w.attach log) =
        ((afterAll ctx na rs w).attach (log ++ callsFrom ctx na k rs.length), none) := by
  intro rs
  induction rs with
  | nil => intro w k log _; simp [probes, cleanupRunLoop, afterAll, callsFrom]
  | cons r rs ih =>
    intro w k log h
    simp only [succeedAll, Bool.and_eq_true, Option.isNone_iff_eq_none] at h
    obtain ⟨h1, h2⟩ := h
    simp only [probes, cleanupRunLoop, afterAll, probe_attach, h1, List.length_cons]
    rw [ih (r ctx na w).1 (k + 1) (log ++ [Call.mk k ctx na]) h2]
    simp [callsFrom_succ]

/-- C1 (fail-fast).  Let the routine list be `pre ++ r :: post`, where every routine of
`pre` returns no error when the routines are run in order from `w`, and `r`, invoked in
the world they leave, returns the error `e`.  Then `cleanupRun` returns exactly `e` in
the world `r` left; and with every routine probed, the call log holds exactly the calls
of the routines at positions `0, ..., pre.length` (those of `pre`, then `r`), once each
and in list order, each with the context and cutoff given to `cleanupRun`: no routine
of `post` has been invoked. -/
theorem cleanupRun_fail_fast {σ : Type} (ctx : Context) (notAfter : Time)
    (pre : List (cleanupRoutine σ)) (r : cleanupRoutine σ) (post : List (cleanupRoutine σ))
    (w : World σ) (e : GoError)
    (hpre : succeedAll ctx notAfter pre w = true)
    (hr : (r ctx notAfter (afterAll ctx notAfter pre w)).2 = some e) :
    cleanupRun ctx notAfter (pre ++ r :: post) w =
        ((r ctx notAfter (afterAll ctx notAfter pre w)).1, some e) ∧
      cleanupRun ctx notAfter (probes 0 (pre ++ r :: post)) (w.attach []) =
        ((r ctx notAfter (afterAll ctx notAfter pre w)).1.attach
          (callsFrom ctx notAfter 0 (pre.length + 1)), some e) := by
  constructor
  · have h := loop_fail ctx notAfter post r e pre w hpre hr
    simpa [cleanupRun] using h
  · have h := loop_probes_fail ctx notAfter post r e pre w 0 [] hpre hr
    simpa [cleanupRun, probes_length] using h

/-- Witness of C1: of four routines the third fails; the first two have run (the store
went from 0 to 3), the calls logged are those at positions 0, 1, 2, the fourth routine
did not run, and the error returned is the third routine's. -/
theorem cleanupRun_fail_fast_witness :
    cleanupRun ⟨7⟩ 100 [bumpRoutine 1, bumpRoutine 2, failRoutine "boom", bumpRoutine 4]
        ⟨0, ""⟩ = (⟨3, ""⟩, some (.errorString "boom")) ∧
      cleanupRun ⟨7⟩ 100
          (probes 0 [bumpRoutine 1, bumpRoutine 2, failRoutine "boom", bumpRoutine 4])
          (World.attach ⟨0, ""⟩ []) =
        (⟨(3, [⟨0, ⟨7⟩, 100⟩, ⟨1, ⟨7⟩, 100⟩, ⟨2, ⟨7⟩, 100⟩]), ""⟩,
          some (.errorString "boom")) :=
  cleanupRun_fail_fast ⟨7⟩ 100 [bumpRoutine 1, bumpRoutine 2] (failRoutine "boom")
    [bumpRoutine 4] ⟨0, ""⟩ (.errorString "boom") rfl rfl

/-- C2 (success characterisation).  `cleanupRun` returns no error if and only if the
routine list is non-empty and every routine returns no error when the routines are run
in list order; and in that case the world is the one left by invoking every routine
once in list order, and with every routine probed the call log holds exactly one call
per routine, in list order, each with the context and the cutoff passed to
`cleanupRun`. -/
theorem cleanupRun_success_iff {σ : Type} (ctx : Context) (notAfter : Time)
    (routines : List (cleanupRoutine σ)) (w : World σ) :
    ((cleanupRun ctx notAfter routines w).2 = none ↔
        routines ≠ [] ∧ succeedAll ctx notAfter routines w = true) ∧
      ((cleanupRun ctx notAfter routines w).2 = none →
        cleanupRun ctx notAfter routines w = (afterAll ctx notAfter routines w, none) ∧
        cleanupRun ctx notAfter (probes 0 routines) (w.attach []) =
          ((afterAll ctx notAfter routines w).attach
            (callsFrom ctx notAfter 0 routines.length), none)) := by
  have hiff : (cleanupRun ctx notAfter routines w).2 = none ↔
      routines ≠ [] ∧ succeedAll ctx notAfter routines w = true := by
    cases routines with
    | nil => simp [cleanupRun]
    | cons r rs =>
      have h := loop_ok_iff ctx notAfter (r :: rs) w
      simpa [cleanupRun] using h
  refine ⟨hiff, fun hnone => ?_⟩
  obtain ⟨hne, hall⟩ := hiff.mp hnone
  have hlen : routines.length ≠ 0 := by
    intro h0
    exact hne (List.length_eq_zero.mp h0)
  constructor
  · have h := loop_ok ctx notAfter routines w hall
    simpa [cleanupRun, hlen] using h
  · have h := loop_probes_ok ctx notAfter routines w 0 [] hall
    simpa [cleanupRun, probes_length, hlen] using h

/-- Witness of C2: three succeeding routines; no error, the store went from 0 to 7, and
the log holds the three calls in order with the context and cutoff of the run. -/
theorem cleanupRun_success_iff_witness :
    cleanupRun ⟨7⟩ 100 (probes 0 [bumpRoutine 1, bumpRoutine 2, bumpRoutine 4])
        (World.attach ⟨0, ""⟩ []) =
      (⟨(7, [⟨0, ⟨7⟩, 100⟩, ⟨1, ⟨7⟩, 100⟩, ⟨2, ⟨7⟩, 100⟩]), ""⟩, none) :=
  ((cleanupRun_success_iff ⟨7⟩ 100 [bumpRoutine 1, bumpRoutine 2, bumpRoutine 4]
    ⟨0, ""⟩).2 rfl).2

/-- C6 (empty run).  Called with zero routines, `cleanupRun` leaves the world as it
was (nothing ran, nothing was written) and returns an error whose message is exactly
"clean up run received 0 routines". -/
theorem cleanupRun_empty {σ : Type} (ctx : Context) (notAfter : Time) (w : World σ) :
    (cleanupRun ctx notAfter [] w).1 = w ∧
      (cleanupRun ctx notAfter [] w).2.map GoError.Error =
        some "clean up run received 0 routines" ∧
      (cleanupRun ctx notAfter (probes 0 ([] : List (cleanupRoutine σ))) (w.attach [])).1 =
        w.attach [] := by
  refine ⟨rfl, rfl, rfl⟩

/-- C4 (validation gate).  `Args` returns no error if and only if a locator is given (a
positional argument, read-from-env, or a config path) and at least one of tokens,
requests, grant-type-jwt-bearer is set.  In particular it fails whenever no category
flag is set, and whenever there is no positional argument, read-from-env is unset and
no config path is given. -/
theorem Args_ok_iff {σ : Type} (cmd : Command) (args : List String) (w : World σ) :
    ((Args cmd args w).2 = none ↔
        (args ≠ [] ∨ MustGetBool cmd ReadFromEnv = true ∨ MustGetStringSlice cmd Config ≠ []) ∧
        (MustGetBool cmd Tokens = true ∨ MustGetBool cmd Requests = true ∨
          MustGetBool cmd GrantTypeJWTBearer = true)) ∧
      (MustGetBool cmd Tokens = false ∧ MustGetBool cmd Requests = false ∧
          MustGetBool cmd GrantTypeJWTBearer = false → (Args cmd args w).2 ≠ none) ∧
      (args = [] ∧ MustGetBool cmd ReadFromEnv = false ∧ MustGetStringSlice cmd Config = [] →
        (Args cmd args w).2 ≠ none) := by
  have hiff : (Args cmd args w).2 = none ↔
      (args ≠ [] ∨ MustGetBool cmd ReadFromEnv = true ∨ MustGetStringSlice cmd Config ≠ []) ∧
      (MustGetBool cmd Tokens = true ∨ MustGetBool cmd Requests = true ∨
        MustGetBool cmd GrantTypeJWTBearer = true) := by
    unfold Args
    cases args <;> cases MustGetStringSlice cmd Config <;>
      cases MustGetBool cmd ReadFromEnv <;> cases MustGetBool cmd Tokens <;>
      cases MustGetBool cmd Requests <;> cases MustGetBool cmd GrantTypeJWTBearer <;> simp
  refine ⟨hiff, ?_, ?_⟩
  · rintro ⟨h1, h2, h3⟩ hnone
    have h := (hiff.mp hnone).2
    simp [h1, h2, h3] at h
  · rintro ⟨h1, h2, h3⟩ hnone
    have h := (hiff.mp hnone).1
    simp [h1, h2, h3] at h

theorem wrapInt64_neg_of_pos (d : Int) (hpos : 0 < d) (hhi : d ≤ maxInt64) :
    wrapInt64 (-d) = -d := by
  unfold wrapInt64
  unfold maxInt64 at hhi
  have h : (-d + 2 ^ 63) % 2 ^ 64 = -d + 2 ^ 63 := by
    apply Int.emod_eq_of_lt
    · norm_num; omega
    · norm_num; omega
  rw [h]
  ring

/-- C10 (exact usage error for a missing category).  Whenever a locator is supplied and
none of tokens, requests, grant-type-jwt-bearer is set, `Args` returns an error whose
message is the usage text followed by a line with the exact text "Janitor requires at
least --tokens or --requests or --grant-type-jwt-bearer to be set"; so the message
contains that text, whatever the usage string. -/
theorem Args_missing_category {σ : Type} (cmd : Command) (args : List String) (w : World σ)
    (hloc : args ≠ [] ∨ MustGetBool cmd ReadFromEnv = true ∨
      MustGetStringSlice cmd Config ≠ [])
    (htok : MustGetBool cmd Tokens = false) (hreq : MustGetBool cmd Requests = false)
    (hgrant : MustGetBool cmd GrantTypeJWTBearer = false) :
    ∃ e : GoError, (Args cmd args w).2 = some e ∧
      e.Error = cmd.UsageString ++
        "\nJanitor requires at least --tokens or --requests or --grant-type-jwt-bearer to be set\n" ∧
      Contains e.Error
        "Janitor requires at least --tokens or --requests or --grant-type-jwt-bearer to be set" := by
  have hcond : (args.length == 0 && !MustGetBool cmd ReadFromEnv &&
      (MustGetStringSlice cmd Config).length == 0) = false := by
    rcases hloc with h | h | h
    · cases args with
      | nil => exact absurd rfl h
      | cons a as => simp
    · simp [h]
    · cases hc : MustGetStringSlice cmd Config with
      | nil => exact absurd hc h
      | cons a as => simp
  have hmsg : cmd.UsageString ++ "\nJanitor requires at least --" ++ Tokens ++ " or --" ++
      Requests ++ " or --" ++ GrantTypeJWTBearer ++ " to be set\n" =
      cmd.UsageString ++
        "\nJanitor requires at least --tokens or --requests or --grant-type-jwt-bearer to be set\n" := by
    simp only [String.append_assoc]
    congr 1
  refine ⟨.errorString (cmd.UsageString ++
    "\nJanitor requires at least --tokens or --requests or --grant-type-jwt-bearer to be set\n"),
    ?_, rfl, ?_⟩
  · unfold Args
    rw [hcond]
    simp [htok, hreq, hgrant, hmsg]
  · unfold Contains
    refine ⟨cmd.UsageString.data ++ ['\n'], ['\n'], ?_⟩
    simp only [GoError.Error, String.data_append]
    simp [List.append_assoc]

/-- Witness of C10: the invocation of the test, `janitor memory` with no selector. -/
theorem Args_missing_category_witness :
    ∃ e : GoError, (Args (bareCommand "Usage: janitor") ["memory"] (⟨0, ""⟩ : World Nat)).2 = some e ∧
      e.Error = "Usage: janitor" ++
        "\nJanitor requires at least --tokens or --requests or --grant-type-jwt-bearer to be set\n" ∧
      Contains e.Error
        "Janitor requires at least --tokens or --requests or --grant-type-jwt-bearer to be set" :=
  Args_missing_category (bareCommand "Usage: janitor") ["memory"] ⟨0, ""⟩
    (Or.inl (by decide)) rfl rfl rfl

/-- C7 (routine wrapper).  The routine `cleanup f s` invokes `f` exactly once, with the
context and cutoff it was given (the log of a probed `f` holds that one call).  If `f`
returns no error, the world is the one `f` left with exactly the line "Successfully
completed Janitor run on <s>" appended to standard output, and no error is returned.
If `f` returns the error `e`, the world is exactly the one `f` left (nothing is
written) and the error returned wraps `e` and has the message "Could not cleanup
inactive <s>: " followed by the message of `e`. -/
theorem cleanup_spec {σ : Type} (f : cleanupRoutine σ) (s : String) (ctx : Context)
    (notAfter : Time) (w : World σ) :
    (cleanup (probe 0 f) s ctx notAfter (w.attach [])).1.store.2 = [Call.mk 0 ctx notAfter] ∧
      ((f ctx notAfter w).2 = none →
        cleanup f s ctx notAfter w =
          ({ (f ctx notAfter w).1 with
              stdout := (f ctx notAfter w).1.stdout ++
                ("Successfully completed Janitor run on " ++ s ++ "\n") }, none)) ∧
      (∀ e : GoError, (f ctx notAfter w).2 = some e →
        ∃ e1 : GoError, cleanup f s ctx notAfter w = ((f ctx notAfter w).1, some e1) ∧
          e1.Unwrap = some e ∧
          e1.Error = "Could not cleanup inactive " ++ s ++ ": " ++ e.Error) := by
  refine ⟨?_, ?_, ?_⟩
  · simp only [cleanup, probe_attach]
    rcases f ctx notAfter w with ⟨w1, oe⟩
    cases oe <;> rfl
  · intro h
    simp only [cleanup]
    rcases hf : f ctx notAfter w with ⟨w1, oe⟩
    rw [hf] at h
    simp only at h
    subst h
    rfl
  · intro e h
    simp only [cleanup]
    rcases hf : f ctx notAfter w with ⟨w1, oe⟩
    rw [hf] at h
    simp only at h
    subst h
    exact ⟨_, rfl, rfl, rfl⟩

/-- Witness of C7: a succeeding and a failing operation wrapped under the name "access
tokens". -/
theorem cleanup_spec_witness :
    cleanup (bumpRoutine 1) "access tokens" ⟨7⟩ 100 ⟨0, "log: "⟩ =
        (⟨1, "log: Successfully completed Janitor run on access tokens\n"⟩, none) ∧
      ∃ e1 : GoError,
        cleanup (failRoutine "boom") "access tokens" ⟨7⟩ 100 ⟨0, "log: "⟩ =
            (⟨0, "log: "⟩, some e1) ∧
          e1.Unwrap = some (.errorString "boom") ∧
          e1.Error = "Could not cleanup inactive access tokens: boom" :=
  ⟨(cleanup_spec (bumpRoutine 1) "access tokens" ⟨7⟩ 100 ⟨0, "log: "⟩).2.1 rfl,
   (cleanup_spec (failRoutine "boom") "access tokens" ⟨7⟩ 100 ⟨0, "log: "⟩).2.2
     (.errorString "boom") rfl⟩

/-- Membership in the option list built by the loop over the map entries. -/
theorem mem_foldl_lifespan (cmd : Command) (o : OptionModifier) :
    ∀ (order : List (String × ConfigKey)) (acc : List OptionModifier),
      o ∈ order.foldl
          (fun co kv =>
            let x := MustGetDuration cmd kv.1
            if x > 0 then co ++ [OptionModifier.WithValue kv.2 (.duration x)] else co) acc ↔
        o ∈ acc ∨ ∃ kv ∈ order, 0 < MustGetDuration cmd kv.1 ∧
          o = OptionModifier.WithValue kv.2 (.duration (MustGetDuration cmd kv.1)) := by
  intro order
  induction order with
  | nil => intro acc; simp
  | cons kv rest ih =>
    intro acc
    simp only [List.foldl_cons, ih, List.mem_cons, exists_eq_or_imp]
    by_cases hpos : 0 < MustGetDuration cmd kv.1
    · simp only [gt_iff_lt, hpos, if_true, List.mem_append, List.mem_singleton, true_and]
      tauto
    · simp only [gt_iff_lt, hpos, if_false, false_and, false_or]

theorem mem_lifespanOptions (cmd : Command) (order : List (String × ConfigKey))
    (horder : order.Perm keys) (o : OptionModifier) :
    o ∈ lifespanOptions order cmd ↔
      o = .WithFlags ∨ o = .SkipValidation ∨
      (0 < MustGetDuration cmd AccessLifespan ∧
        o = .WithValue .KeyAccessTokenLifespan (.duration (MustGetDuration cmd AccessLifespan))) ∨
      (0 < MustGetDuration cmd RefreshLifespan ∧
        o = .WithValue .KeyRefreshTokenLifespan
          (.duration (MustGetDuration cmd RefreshLifespan))) ∨
      (0 < MustGetDuration cmd ConsentRequestLifespan ∧
        o = .WithValue .KeyConsentRequestMaxAge
          (.duration (MustGetDuration cmd ConsentRequestLifespan))) := by
  unfold lifespanOptions
  rw [mem_foldl_lifespan]
  simp only [horder.mem_iff, keys, List.mem_cons, List.mem_singleton, List.not_mem_nil,
    or_false, exists_eq_or_imp, exists_eq_left]
  tauto

theorem routine_apply {σ : Type} (p : Persister σ) (c : CleanupCategory) (ctx : Context)
    (na : Time) (w : World σ) :
    c.routine p ctx na w =
      match c.flush p ctx na w.store with
      | (s1, none) => (⟨s1, w.stdout ++ successLine c⟩, none)
      | (s1, some e) =>
        (⟨s1, w.stdout⟩, some (.wrapped e ("Could not cleanup inactive " ++ c.routineName))) := by
  simp only [CleanupCategory.routine, cleanup, onStore, successLine, World.Printf]
  rcases c.flush p ctx na w.store with ⟨s1, oe⟩
  cases oe <;> rfl

/-- The loop over the routines of a list of categories, in terms of the flush results. -/
theorem loop_categories {σ : Type} (p : Persister σ) (ctx : Context) (na : Time) :
    ∀ (cs : List CleanupCategory) (w : World σ),
      cleanupRunLoop ctx na (cs.map (CleanupCategory.routine p)) w =
        (⟨storeAfter p ctx na cs w.store,
            w.stdout ++ successLines (completed p ctx na cs w.store)⟩,
          (firstFailure p ctx na cs w.store).map
            (fun ce => GoError.wrapped ce.2 ("Could not cleanup inactive " ++ ce.1.routineName))) := by
  intro cs
  induction cs with
  | nil =>
    intro w
    simp [cleanupRunLoop, storeAfter, completed, successLines, firstFailure]
  | cons c cs ih =>
    intro w
    simp only [List.map_cons, cleanupRunLoop, routine_apply, storeAfter, completed,
      firstFailure]
    rcases c.flush p ctx na w.store with ⟨s1, oe⟩
    cases oe with
    | none => simp [ih, successLines, String.append_assoc]
    | some e => simp [successLines]

/-- The completed categories are the ones before the first failing one. -/
theorem completed_before_failure {σ : Type} (p : Persister σ) (ctx : Context) (na : Time) :
    ∀ (cs : List CleanupCategory) (s : σ),
      (∀ c e, firstFailure p ctx na cs s = some (c, e) →
        ∃ rest, cs = completed p ctx na cs s ++ c :: rest) ∧
      (firstFailure p ctx na cs s = none → completed p ctx na cs s = cs) := by
  intro cs
  induction cs with
  | nil => intro s; simp [firstFailure, completed]
  | cons c cs ih =>
    intro s
    simp only [firstFailure, completed]
    rcases c.flush p ctx na s with ⟨s1, oe⟩
    cases oe with
    | none =>
      refine ⟨fun c1 e h => ?_, fun h => ?_⟩
      · obtain ⟨rest, hrest⟩ := (ih s1).1 c1 e h
        exact ⟨rest, by simp only [List.cons_append]; rw [← hrest]⟩
      · simp only [(ih s1).2 h]
    | some e1 =>
      refine ⟨fun c1 e h => ?_, fun h => ?_⟩
      · simp only [Option.some.injEq, Prod.mk.injEq] at h
        obtain ⟨hc, _⟩ := h
        subst hc
        exact ⟨cs, rfl⟩
      · simp at h

theorem contains_routineName (e : GoError) (name : String) :
    Contains (GoError.wrapped e ("Could not cleanup inactive " ++ name)).Error name := by
  unfold Contains
  refine ⟨"Could not cleanup inactive ".data, (": " ++ e.Error).data, ?_⟩
  simp [GoError.Error, String.data_append, List.append_assoc]

/-- C8 (output trace of a run).  For every flag combination and every behaviour of the
flush operations, executing the selected run writes to standard output exactly the
success lines of the categories that completed, in execution order, and nothing else;
the store is the one left by the flush operations that ran.  If a category is the
first to fail with error `e`, the completed categories are exactly the selected ones
before it, and the returned error wraps `e` under "Could not cleanup inactive <name of
that category>", so that its message contains the name.  If none fails, all selected
categories completed. -/
theorem run_output_trace {σ : Type} (p : Persister σ) (cmd : Command) (ctx : Context)
    (notAfter : Time) (w : World σ) :
    (cleanupRun ctx notAfter (selectRoutines p cmd) w).1.stdout =
        w.stdout ++ successLines (completed p ctx notAfter
          (selectedCategories (MustGetBool cmd Tokens) (MustGetBool cmd Requests)
            (MustGetBool cmd GrantTypeJWTBearer)) w.store) ∧
      (cleanupRun ctx notAfter (selectRoutines p cmd) w).1.store =
        storeAfter p ctx notAfter
          (selectedCategories (MustGetBool cmd Tokens) (MustGetBool cmd Requests)
            (MustGetBool cmd GrantTypeJWTBearer)) w.store ∧
      (∀ (c : CleanupCategory) (e : GoError),
        firstFailure p ctx notAfter
            (selectedCategories (MustGetBool cmd Tokens) (MustGetBool cmd Requests)
              (MustGetBool cmd GrantTypeJWTBearer)) w.store = some (c, e) →
          (∃ rest : List CleanupCategory,
            selectedCategories (MustGetBool cmd Tokens) (MustGetBool cmd Requests)
                (MustGetBool cmd GrantTypeJWTBearer) =
              completed p ctx notAfter
                (selectedCategories (MustGetBool cmd Tokens) (MustGetBool cmd Requests)
                  (MustGetBool cmd GrantTypeJWTBearer)) w.store ++ c :: rest) ∧
          (cleanupRun ctx notAfter (selectRoutines p cmd) w).2 =
            some (.wrapped e ("Could not cleanup inactive " ++ c.routineName)) ∧
          Contains (GoError.wrapped e ("Could not cleanup inactive " ++ c.routineName)).Error
            c.routineName) ∧
      (firstFailure p ctx notAfter
          (selectedCategories (MustGetBool cmd Tokens) (MustGetBool cmd Requests)
            (MustGetBool cmd GrantTypeJWTBearer)) w.store = none →
        completed p ctx notAfter
            (selectedCategories (MustGetBool cmd Tokens) (MustGetBool cmd Requests)
              (MustGetBool cmd GrantTypeJWTBearer)) w.store =
          selectedCategories (MustGetBool cmd Tokens) (MustGetBool cmd Requests)
            (MustGetBool cmd GrantTypeJWTBearer)) := by
  have hsel : selectRoutines p cmd =
      (selectedCategories (MustGetBool cmd Tokens) (MustGetBool cmd Requests)
        (MustGetBool cmd GrantTypeJWTBearer)).map (CleanupCategory.routine p) := by
    unfold selectRoutines
    cases MustGetBool cmd Tokens <;> cases MustGetBool cmd Requests <;>
      cases MustGetBool cmd GrantTypeJWTBearer <;> rfl
  rw [hsel]
  generalize selectedCategories (MustGetBool cmd Tokens) (MustGetBool cmd Requests)
    (MustGetBool cmd GrantTypeJWTBearer) = cs
  have hloop := loop_categories p ctx notAfter cs w
  have hsplit := completed_before_failure p ctx notAfter cs w.store
  cases cs with
  | nil =>
    simp [cleanupRun, completed, successLines, storeAfter, firstFailure]
  | cons c0 cs0 =>
    have hrun : cleanupRun ctx notAfter ((c0 :: cs0).map (CleanupCategory.routine p)) w =
        cleanupRunLoop ctx notAfter ((c0 :: cs0).map (CleanupCategory.routine p)) w := by
      simp [cleanupRun]
    rw [hrun, hloop]
    refine ⟨rfl, rfl, fun c e h => ⟨hsplit.1 c e h, ?_, contains_routineName e _⟩, hsplit.2⟩
    simp [h]

/-- Witness of C8 (Scenario C): tokens and requests selected, the refresh-token flush
fails with a storage error.  The output is the single success line for "access tokens",
the error message names "refresh tokens", and the login-consent flush never ran: the
store records the access-token and the refresh-token flush only. -/
theorem run_output_trace_scenario_C :
    (cleanupRun ⟨0⟩ 1000
        (selectRoutines refreshFailing (withSelectors (bareCommand "") true true false))
        ⟨[], ""⟩).1.stdout = "Successfully completed Janitor run on access tokens\n" ∧
      (cleanupRun ⟨0⟩ 1000
        (selectRoutines refreshFailing (withSelectors (bareCommand "") true true false))
        ⟨[], ""⟩).1.store = ["FlushInactiveAccessTokens", "FlushInactiveRefreshTokens"] ∧
      (cleanupRun ⟨0⟩ 1000
        (selectRoutines refreshFailing (withSelectors (bareCommand "") true true false))
        ⟨[], ""⟩).2 =
          some (.wrapped (.errorString "storage error")
            "Could not cleanup inactive refresh tokens") ∧
      Contains "Could not cleanup inactive refresh tokens: storage error" "refresh tokens" :=
  have h := run_output_trace refreshFailing (withSelectors (bareCommand "") true true false)
    ⟨0⟩ 1000 ⟨[], ""⟩
  ⟨h.1, h.2.1,
    (h.2.2.1 .RefreshTokens (.errorString "storage error") rfl).2.1,
    (h.2.2.1 .RefreshTokens (.errorString "storage error") rfl).2.2⟩

/-- C11 (cutoff monotonicity).  For a fixed instant `now` and two commands whose
keep-if-younger durations satisfy `0 ≤ d1 < d2` (`d2` an `int64`), the cutoff computed
for `d2` is strictly earlier than the cutoff computed for `d1`; hence every timestamp
strictly older than the cutoff for `d2` is also strictly older than the cutoff for
`d1`: a longer duration never enlarges the set eligible for deletion. -/
theorem cutoff_strict_anti (now : Time) (cmd1 cmd2 : Command)
    (h0 : 0 ≤ MustGetDuration cmd1 KeepIfYounger)
    (hlt : MustGetDuration cmd1 KeepIfYounger < MustGetDuration cmd2 KeepIfYounger)
    (hhi : MustGetDuration cmd2 KeepIfYounger ≤ maxInt64) :
    cutoff now cmd2 < cutoff now cmd1 ∧
      ∀ t : Time, t < cutoff now cmd2 → t < cutoff now cmd1 := by
  have hpos2 : 0 < MustGetDuration cmd2 KeepIfYounger := lt_of_le_of_lt h0 hlt
  have hc2 : cutoff now cmd2 = now - MustGetDuration cmd2 KeepIfYounger := by
    simp only [cutoff, gt_iff_lt, hpos2, if_true, Time.Add, Duration.neg,
      wrapInt64_neg_of_pos _ hpos2 hhi]
    ring
  have hc1 : cutoff now cmd1 = now - MustGetDuration cmd1 KeepIfYounger := by
    by_cases hpos1 : 0 < MustGetDuration cmd1 KeepIfYounger
    · simp only [cutoff, gt_iff_lt, hpos1, if_true, Time.Add, Duration.neg,
        wrapInt64_neg_of_pos _ hpos1 (le_trans (le_of_lt hlt) hhi)]
      ring
    · have hz : MustGetDuration cmd1 KeepIfYounger = 0 := le_antisymm (not_lt.mp hpos1) h0
      have hnow : cutoff now cmd1 = now := by
        simp only [cutoff, gt_iff_lt, hpos1, if_false]
      rw [hnow, hz, sub_zero]
  have hlt12 : cutoff now cmd2 < cutoff now cmd1 := by
    rw [hc1, hc2]
    exact sub_lt_sub_left hlt now
  exact ⟨hlt12, fun t ht => lt_trans ht hlt12⟩

/-- Witness of C11: with `now` at 1000, keeping what is younger than 300 gives the cutoff
700, keeping nothing gives 1000. -/
theorem cutoff_strict_anti_witness :
    cutoff 1000 (withKeepIfYounger (bareCommand "") 300) <
        cutoff 1000 (withKeepIfYounger (bareCommand "") 0) ∧
      ∀ t : Time, t < cutoff 1000 (withKeepIfYounger (bareCommand "") 300) →
        t < cutoff 1000 (withKeepIfYounger (bareCommand "") 0) :=
  cutoff_strict_anti 1000 (withKeepIfYounger (bareCommand "") 0)
    (withKeepIfYounger (bareCommand "") 300) (by decide) (by decide) (by decide)

theorem selectRoutines_eq_map {σ : Type} (p : Persister σ) (cmd : Command) :
    selectRoutines p cmd =
      (selectedCategories (MustGetBool cmd Tokens) (MustGetBool cmd Requests)
        (MustGetBool cmd GrantTypeJWTBearer)).map (CleanupCategory.routine p) := by
  unfold selectRoutines
  cases MustGetBool cmd Tokens <;> cases MustGetBool cmd Requests <;>
    cases MustGetBool cmd GrantTypeJWTBearer <;> rfl

theorem selectRoutines_length {σ : Type} (p : Persister σ) (cmd : Command) :
    (selectRoutines p cmd).length =
      (if MustGetBool cmd Tokens = true then 2 else 0) +
      (if MustGetBool cmd Requests = true then 1 else 0) +
      (if MustGetBool cmd GrantTypeJWTBearer = true then 1 else 0) := by
  unfold selectRoutines
  cases MustGetBool cmd Tokens <;> cases MustGetBool cmd Requests <;>
    cases MustGetBool cmd GrantTypeJWTBearer <;> rfl

/-- The message of a wrapped routine error is not the message of the empty-run error. -/
theorem wrapped_message_ne (e : GoError) (name : String) :
    (GoError.wrapped e ("Could not cleanup inactive " ++ name)).Error ≠
      "clean up run received 0 routines" := by
  intro h
  have hd := congrArg String.data h
  simp [GoError.Error, String.data_append] at hd

/-- C12 (the zero-routine error is unreachable after validation).  Whenever `Args`
returns no error, the routine list `purge` builds from the same flags has length 2 if
tokens is set, plus 1 if requests is set, plus 1 if grant-type-jwt-bearer is set, which
is at least 1; so `cleanupRun` on it returns neither the empty-run error nor any error
with the message "clean up run received 0 routines".  Conversely the list is empty
exactly when none of the three flags is set. -/
theorem selectRoutines_nonempty_of_Args {σ τ : Type} (cmd : Command) (args : List String)
    (w0 : World τ) (hargs : (Args cmd args w0).2 = none)
    (p : Persister σ) (ctx : Context) (notAfter : Time) (w : World σ) :
    (selectRoutines p cmd).length =
        (if MustGetBool cmd Tokens = true then 2 else 0) +
        (if MustGetBool cmd Requests = true then 1 else 0) +
        (if MustGetBool cmd GrantTypeJWTBearer = true then 1 else 0) ∧
      1 ≤ (selectRoutines p cmd).length ∧
      (∀ e : GoError, (cleanupRun ctx notAfter (selectRoutines p cmd) w).2 = some e →
        e ≠ .errorString "clean up run received 0 routines" ∧
        e.Error ≠ "clean up run received 0 routines") ∧
      (selectRoutines p cmd = [] ↔
        MustGetBool cmd Tokens = false ∧ MustGetBool cmd Requests = false ∧
          MustGetBool cmd GrantTypeJWTBearer = false) := by
  have hsome : MustGetBool cmd Tokens = true ∨ MustGetBool cmd Requests = true ∨
      MustGetBool cmd GrantTypeJWTBearer = true := by
    unfold Args at hargs
    revert hargs
    cases args <;> cases MustGetStringSlice cmd Config <;>
      cases MustGetBool cmd ReadFromEnv <;> cases MustGetBool cmd Tokens <;>
      cases MustGetBool cmd Requests <;> cases MustGetBool cmd GrantTypeJWTBearer <;> simp
  have hlen := selectRoutines_length p cmd
  have hpos : 1 ≤ (selectRoutines p cmd).length := by
    rw [hlen]
    rcases hsome with h | h | h <;> simp [h] <;> omega
  have hempty : selectRoutines p cmd = [] ↔
      MustGetBool cmd Tokens = false ∧ MustGetBool cmd Requests = false ∧
        MustGetBool cmd GrantTypeJWTBearer = false := by
    rw [← List.length_eq_zero, hlen]
    cases MustGetBool cmd Tokens <;> cases MustGetBool cmd Requests <;>
      cases MustGetBool cmd GrantTypeJWTBearer <;> simp
  refine ⟨hlen, hpos, ?_, hempty⟩
  intro e he
  have hne : ((selectRoutines p cmd).length == 0) = false := by
    have : (selectRoutines p cmd).length ≠ 0 := by omega
    simpa using this
  simp only [cleanupRun, hne] at he
  rw [selectRoutines_eq_map, loop_categories] at he
  simp only [Bool.false_eq_true, if_false, Option.map_eq_some'] at he
  obtain ⟨ce, _, hce⟩ := he
  subst hce
  exact ⟨by simp, wrapped_message_ne ce.2 ce.1.routineName⟩

/-- Witness of C12: `janitor --tokens memory` passes validation; the run has two
routines and its error (the refresh-token flush fails) is not the empty-run error. -/
theorem selectRoutines_nonempty_of_Args_witness :
    (selectRoutines refreshFailing (withSelectors (bareCommand "") true false false)).length = 2 ∧
      (cleanupRun ⟨0⟩ 1000
          (selectRoutines refreshFailing (withSelectors (bareCommand "") true false false))
          ⟨[], ""⟩).2 =
        some (.wrapped (.errorString "storage error")
          "Could not cleanup inactive refresh tokens") ∧
      GoError.Error (.wrapped (.errorString "storage error")
          "Could not cleanup inactive refresh tokens") ≠ "clean up run received 0 routines" :=
  have h := selectRoutines_nonempty_of_Args
    (withSelectors (bareCommand "") true false false) ["memory"] (⟨0, ""⟩ : World Nat) rfl
    refreshFailing ⟨0⟩ 1000 ⟨[], ""⟩
  ⟨h.1, rfl, (h.2.2.1 _ rfl).2⟩

/-- C16 (no rollback across categories).  Let the run be `pre ++ r :: post`, where the
routines of `pre` succeed in turn from the world `w` and `r`, invoked next, is the first
to fail.  The world `cleanupRun` leaves, its store in particular, is the one obtained
by applying the routines of `pre` in order to `w` and then whatever `r` left behind:
nothing of `pre` is undone, and the result is the same whichever routines `post` come
after `r`, so none of them has had an effect. -/
theorem cleanupRun_no_rollback {σ : Type} (ctx : Context) (notAfter : Time)
    (pre : List (cleanupRoutine σ)) (r : cleanupRoutine σ) (post : List (cleanupRoutine σ))
    (w : World σ) (e : GoError)
    (hpre : succeedAll ctx notAfter pre w = true)
    (hr : (r ctx notAfter (afterAll ctx notAfter pre w)).2 = some e) :
    (cleanupRun ctx notAfter (pre ++ r :: post) w).1.store =
        (r ctx notAfter (afterAll ctx notAfter pre w)).1.store ∧
      (cleanupRun ctx notAfter (pre ++ r :: post) w).1 =
        (r ctx notAfter (afterAll ctx notAfter pre w)).1 ∧
      ∀ post1 : List (cleanupRoutine σ),
        cleanupRun ctx notAfter (pre ++ r :: post1) w =
          cleanupRun ctx notAfter (pre ++ r :: post) w := by
  have hrun : ∀ post1 : List (cleanupRoutine σ),
      cleanupRun ctx notAfter (pre ++ r :: post1) w =
        ((r ctx notAfter (afterAll ctx notAfter pre w)).1, some e) := by
    intro post1
    have h := loop_fail ctx notAfter post1 r e pre w hpre hr
    simpa [cleanupRun] using h
  refine ⟨?_, ?_, fun post1 => ?_⟩
  · rw [hrun post]
  · rw [hrun post]
  · rw [hrun post1, hrun post]

/-- Witness of C16: the first routine adds 1, the second adds 2 and then fails, the third
would add 4.  The store ends at 3: the first routine's effect stays, the failing one's
partial effect stays, the third had none. -/
theorem cleanupRun_no_rollback_witness :
    (cleanupRun ⟨7⟩ 100 [bumpRoutine 1, partialRoutine 2 "boom", bumpRoutine 4]
        ⟨0, ""⟩).1.store = 3 :=
  (cleanupRun_no_rollback ⟨7⟩ 100 [bumpRoutine 1] (partialRoutine 2 "boom") [bumpRoutine 4]
    ⟨0, ""⟩ (.errorString "boom") rfl rfl).1

/-- With no locator `Args` prints the usage text and returns the missing-locator error. -/
theorem Args_no_locator {σ : Type} (cmd : Command) (args : List String) (w : World σ)
    (hargs : args = []) (henv : MustGetBool cmd ReadFromEnv = false)
    (hconf : MustGetStringSlice cmd Config = []) :
    Args cmd args w =
      (w.Printf (cmd.UsageString ++ "\n"),
        some (.errorString
          ("A DSN is required as a positional argument when not passing any of the following flags:"
            ++ "\n" ++ "- Using the environment variable with flag -e, --read-from-env"
            ++ "\n" ++ "- Using the config file with flag -c, --config" ++ "\n"))) := by
  unfold Args
  simp [hargs, henv, hconf]

/-- With a locator `Args` leaves the world as it is. -/
theorem Args_locator_world {σ : Type} (cmd : Command) (args : List String) (w : World σ)
    (hloc : args ≠ [] ∨ MustGetBool cmd ReadFromEnv = true ∨
      MustGetStringSlice cmd Config ≠ []) :
    (Args cmd args w).1 = w := by
  have hcond : (args.length == 0 && !MustGetBool cmd ReadFromEnv &&
      (MustGetStringSlice cmd Config).length == 0) = false := by
    rcases hloc with h | h | h
    · cases args with
      | nil => exact absurd rfl h
      | cons a as => simp
    · simp [h]
    · cases hc : MustGetStringSlice cmd Config with
      | nil => exact absurd hc h
      | cons a as => simp
  unfold Args
  rw [hcond]
  simp only [Bool.false_eq_true, if_false]
  split <;> rfl

set_option maxRecDepth 100000 in
/-- C18 (precedence of validation errors).  With no locator (no positional argument,
read-from-env unset, no config path) `Args` returns the missing-locator error, whatever
the category flags and so also when none is set: its message begins "A DSN is required
as a positional argument", lists the --read-from-env and the --config alternative, and
is not the missing-category message.  An error whose message contains the
missing-category text is returned only when a locator is present. -/
theorem Args_error_precedence {σ : Type} (cmd : Command) (args : List String) (w : World σ) :
    (args = [] ∧ MustGetBool cmd ReadFromEnv = false ∧ MustGetStringSlice cmd Config = [] →
        ∃ e : GoError, (Args cmd args w).2 = some e ∧
          e.Error =
            "A DSN is required as a positional argument when not passing any of the following flags:\n- Using the environment variable with flag -e, --read-from-env\n- Using the config file with flag -c, --config\n" ∧
          "A DSN is required as a positional argument".data <+: e.Error.data ∧
          Contains e.Error "--read-from-env" ∧ Contains e.Error "--config" ∧
          ¬ Contains e.Error
            "Janitor requires at least --tokens or --requests or --grant-type-jwt-bearer to be set") ∧
      (∀ e : GoError, (Args cmd args w).2 = some e →
        Contains e.Error
          "Janitor requires at least --tokens or --requests or --grant-type-jwt-bearer to be set" →
        args ≠ [] ∨ MustGetBool cmd ReadFromEnv = true ∨ MustGetStringSlice cmd Config ≠ []) := by
  have hno : args = [] ∧ MustGetBool cmd ReadFromEnv = false ∧
      MustGetStringSlice cmd Config = [] →
      (Args cmd args w).2 = some (.errorString
        "A DSN is required as a positional argument when not passing any of the following flags:\n- Using the environment variable with flag -e, --read-from-env\n- Using the config file with flag -c, --config\n") := by
    rintro ⟨h1, h2, h3⟩
    rw [Args_no_locator cmd args w h1 h2 h3]
    rfl
  constructor
  · intro h
    refine ⟨_, hno h, rfl, ?_, ?_, ?_, ?_⟩
    · decide
    · decide
    · decide
    · decide
  · intro e he hc
    by_contra hloc
    have h : args = [] ∧ MustGetBool cmd ReadFromEnv = false ∧
        MustGetStringSlice cmd Config = [] := by
      simp only [not_or, not_not, Bool.not_eq_true] at hloc
      exact hloc
    rw [hno h] at he
    simp only [Option.some.injEq] at he
    subst he
    revert hc
    decide

/-- Witness of C18: `janitor` alone, with neither locator nor category flag. -/
theorem Args_error_precedence_witness :
    ∃ e : GoError, (Args (bareCommand "Usage: janitor") [] (⟨0, ""⟩ : World Nat)).2 = some e ∧
      e.Error =
        "A DSN is required as a positional argument when not passing any of the following flags:\n- Using the environment variable with flag -e, --read-from-env\n- Using the config file with flag -c, --config\n" ∧
      "A DSN is required as a positional argument".data <+: e.Error.data ∧
      Contains e.Error "--read-from-env" ∧ Contains e.Error "--config" ∧
      ¬ Contains e.Error
        "Janitor requires at least --tokens or --requests or --grant-type-jwt-bearer to be set" :=
  (Args_error_precedence (bareCommand "Usage: janitor") [] ⟨0, ""⟩).1 ⟨rfl, rfl, rfl⟩

/-- The function `purge` in terms of its three stages. -/
theorem purge_eq {σ : Type} (env : Env σ) (cmd : Command) (args : List String) (w : World σ) :
    purge env cmd args w =
      match configOptions env.keysOrder cmd args with
      | .error msg => .error msg
      | .ok co => .ok (purgeFrom (resolve env cmd co) (cutoff env.now cmd) cmd w) := by
  unfold purge configOptions purgeFrom resolve
  cases hc : (!MustGetBool cmd ReadFromEnv && (MustGetStringSlice cmd Config).length == 0)
  · simp only [Bool.false_eq_true, if_false]
    split
    · rfl
    · split <;> simp_all
  · cases args with
    | nil => simp
    | cons a rest =>
      simp only [if_true]
      split
      · rfl
      · split <;> simp_all

/-- Counterexample to C14 as stated: `janitor` with no locator.  `Args` writes the usage
text and a newline to standard output, so the world after validation differs from the
world before. -/
theorem Args_writes_usage :
    (Args (bareCommand "Usage: janitor") [] (⟨0, ""⟩ : World Nat)).1.stdout =
        "Usage: janitor\n" ∧
      (Args (bareCommand "Usage: janitor") [] (⟨0, ""⟩ : World Nat)).1 ≠ ⟨0, ""⟩ := by
  constructor
  · rfl
  · decide

/-- C14, amended (effects of validation).  `Args` never changes the store.  When a
locator is supplied (a positional argument, read-from-env, or a config path) it writes
nothing, whether it accepts or rejects the input: the world is left as it was.  When no
locator is supplied it writes the usage text followed by a newline to standard output,
and nothing else, before returning the missing-locator error. -/
theorem Args_effects {σ : Type} (cmd : Command) (args : List String) (w : World σ) :
    (Args cmd args w).1.store = w.store ∧
      (args ≠ [] ∨ MustGetBool cmd ReadFromEnv = true ∨ MustGetStringSlice cmd Config ≠ [] →
        (Args cmd args w).1 = w) ∧
      (args = [] ∧ MustGetBool cmd ReadFromEnv = false ∧ MustGetStringSlice cmd Config = [] →
        (Args cmd args w).1.stdout = w.stdout ++ (cmd.UsageString ++ "\n") ∧
        (Args cmd args w).2 =
          some (.errorString
            "A DSN is required as a positional argument when not passing any of the following flags:\n- Using the environment variable with flag -e, --read-from-env\n- Using the config file with flag -c, --config\n")) := by
  refine ⟨?_, Args_locator_world cmd args w, ?_⟩
  · by_cases hloc : args ≠ [] ∨ MustGetBool cmd ReadFromEnv = true ∨
        MustGetStringSlice cmd Config ≠ []
    · rw [Args_locator_world cmd args w hloc]
    · simp only [not_or, not_not, Bool.not_eq_true] at hloc
      rw [Args_no_locator cmd args w hloc.1 hloc.2.1 hloc.2.2]
      rfl
  · rintro ⟨h1, h2, h3⟩
    rw [Args_no_locator cmd args w h1 h2 h3]
    exact ⟨rfl, rfl⟩

/-- Witness of C14, amended: `janitor memory` without a category flag is rejected and
nothing is written. -/
theorem Args_effects_witness :
    (Args (bareCommand "Usage: janitor") ["memory"] (⟨0, "log: "⟩ : World Nat)).1 =
      ⟨0, "log: "⟩ :=
  (Args_effects (bareCommand "Usage: janitor") ["memory"] ⟨0, "log: "⟩).2.1
    (Or.inl (by decide))

/-- No value is injected under `KeyDSN` by the loop over the lifespan flags. -/
theorem no_dsn_in_lifespanOptions (cmd : Command) (order : List (String × ConfigKey))
    (horder : order.Perm keys) (v : ConfigValue) :
    OptionModifier.WithValue .KeyDSN v ∉ lifespanOptions order cmd := by
  intro hmem
  have h := (mem_lifespanOptions cmd order horder _).mp hmem
  simp at h

/-- When the DSN is empty or `Init` fails, the last stage of `purge` returns an error in
the world it was given, up to what `Init` did to the store. -/
theorem purgeFrom_init_failure {σ : Type} (d : Registry σ) (na : Time) (cmd : Command)
    (w : World σ)
    (hfail : d.DSN.length = 0 ∨ (d.Init cmd.Context w.store).2 ≠ none) :
    ∃ err : GoError,
      purgeFrom d na cmd w =
        (if d.DSN.length = 0 then w else { w with store := (d.Init cmd.Context w.store).1 },
          some err) := by
  unfold purgeFrom
  by_cases hdsn : d.DSN.length = 0
  · simp [hdsn]
  · have hinit : (d.Init cmd.Context w.store).2 ≠ none := by
      rcases hfail with h | h
      · exact absurd h hdsn
      · exact h
    have hb : (d.DSN.length == 0) = false := by simpa using hdsn
    simp only [hb, Bool.false_eq_true, if_false, hdsn]
    rcases hi : d.Init cmd.Context w.store with ⟨s, oe⟩
    rw [hi] at hinit
    cases oe with
    | none => exact absurd rfl hinit
    | some e0 => exact ⟨_, rfl⟩

/-- C13 (initialization failure runs nothing).  Whenever `purge` gets as far as
resolving the store configuration (the options `co` were built without a panic) and the
resolved registry has an empty DSN or its `Init` returns an error, `purge` returns an
error; and run with a recording persister, it returns an error with an empty record:
none of the four flush operations was invoked, whatever category flags are set.
Nothing is written to standard output either. -/
theorem purge_init_failure {σ : Type} (env : Env σ) (cmd : Command) (args : List String)
    (w : World σ) (co : List OptionModifier)
    (hco : configOptions env.keysOrder cmd args = .ok co)
    (hfail : (resolve env cmd co).DSN.length = 0 ∨
      ((resolve env cmd co).Init cmd.Context w.store).2 ≠ none) :
    (∃ (w1 : World σ) (err : GoError), purge env cmd args w = .ok (w1, some err)) ∧
      ∃ (w1 : World (σ × List CleanupCategory)) (err : GoError),
        purge env.recording cmd args w.unrecorded = .ok (w1, some err) ∧
          w1.store.2 = [] ∧ w1.stdout = w.stdout := by
  constructor
  · obtain ⟨err, herr⟩ := purgeFrom_init_failure (resolve env cmd co) (cutoff env.now cmd) cmd w
      hfail
    rw [purge_eq, hco]
    exact ⟨_, err, congrArg Except.ok herr⟩
  · have hco1 : configOptions env.recording.keysOrder cmd args = .ok co := hco
    have hfail1 : (resolve env.recording cmd co).DSN.length = 0 ∨
        ((resolve env.recording cmd co).Init cmd.Context w.unrecorded.store).2 ≠ none := hfail
    obtain ⟨err, herr⟩ := purgeFrom_init_failure (resolve env.recording cmd co)
      (cutoff env.recording.now cmd) cmd w.unrecorded hfail1
    rw [purge_eq, hco1]
    refine ⟨_, err, congrArg Except.ok herr, ?_, ?_⟩
    · by_cases hdsn : (resolve env.recording cmd co).DSN.length = 0
      · simp only [hdsn, if_true]
        rfl
      · simp only [hdsn, if_false]
        rfl
    · by_cases hdsn : (resolve env.recording cmd co).DSN.length = 0
      · simp only [hdsn, if_true]
        rfl
      · simp only [hdsn, if_false]
        rfl

/-- Witness of C13: `janitor --tokens --requests memory` against a registry whose `Init`
rejects the DSN "memory": an error is returned and no flush operation is recorded.  By
contrast, with the DSN "sqlite" the same command records the access-token and the
refresh-token flush. -/
theorem purge_init_failure_witness :
    (∃ (w1 : World (List String × List CleanupCategory)) (err : GoError),
        purge sampleEnv.recording (withSelectors (bareCommand "") true true false) ["memory"]
            (World.unrecorded ⟨[], ""⟩) = .ok (w1, some err) ∧
          w1.store.2 = [] ∧ w1.stdout = "") ∧
      (purge sampleEnv.recording (withSelectors (bareCommand "") true true false) ["sqlite"]
          (World.unrecorded ⟨[], ""⟩)).map (fun res => res.1.store.2) =
        .ok [CleanupCategory.AccessTokens, CleanupCategory.RefreshTokens] :=
  ⟨(purge_init_failure sampleEnv (withSelectors (bareCommand "") true true false) ["memory"]
      ⟨[], ""⟩ _ rfl (Or.inr (by decide))).2, rfl⟩

/-- A flush that has nothing left to do still has nothing to do after a successful run
of independent flush operations. -/
theorem settled_preserved {σ : Type} (p : Persister σ) (ctx : Context) (na : Time)
    (hind : Independent p ctx na) (c : CleanupCategory) :
    ∀ (cs : List CleanupCategory) (s : σ),
      firstFailure p ctx na cs s = none → Settled p ctx na c s →
      Settled p ctx na c (storeAfter p ctx na cs s) := by
  intro cs
  induction cs with
  | nil => intro s _ hs; exact hs
  | cons c1 cs ih =>
    intro s hff hs
    have hstep := hind c c1 s hs
    simp only [firstFailure] at hff
    simp only [storeAfter]
    rcases hf : c1.flush p ctx na s with ⟨s1, oe⟩
    rw [hf] at hff hstep
    cases oe with
    | none => exact ih s1 hff (hstep rfl)
    | some e => simp at hff

/-- After a successful run of idempotent, independent flush operations every one of them
has nothing left to do. -/
theorem settled_after_run {σ : Type} (p : Persister σ) (ctx : Context) (na : Time)
    (hidem : Idempotent p ctx na) (hind : Independent p ctx na) :
    ∀ (cs : List CleanupCategory) (s : σ),
      firstFailure p ctx na cs s = none →
      ∀ c ∈ cs, Settled p ctx na c (storeAfter p ctx na cs s) := by
  intro cs
  induction cs with
  | nil => intro s _ c hc; simp at hc
  | cons c1 cs ih =>
    intro s hff c hc
    have hid := hidem c1 s
    simp only [firstFailure] at hff
    simp only [storeAfter]
    rcases hf : c1.flush p ctx na s with ⟨s1, oe⟩
    rw [hf] at hff hid
    cases oe with
    | some e => simp at hff
    | none =>
      simp only at hff
      rcases List.mem_cons.mp hc with h | h
      · subst h
        exact settled_preserved p ctx na hind c cs s1 hff (hid rfl)
      · exact ih s1 hff c h

/-- A run of flush operations that all have nothing left to do succeeds and changes
nothing. -/
theorem run_of_settled {σ : Type} (p : Persister σ) (ctx : Context) (na : Time) :
    ∀ (cs : List CleanupCategory) (s : σ),
      (∀ c ∈ cs, Settled p ctx na c s) →
      firstFailure p ctx na cs s = none ∧ storeAfter p ctx na cs s = s := by
  intro cs
  induction cs with
  | nil => intro s _; exact ⟨rfl, rfl⟩
  | cons c1 cs ih =>
    intro s h
    have h1 : c1.flush p ctx na s = (s, none) := h c1 (List.mem_cons_self _ _)
    simp only [firstFailure, storeAfter, h1]
    exact ih s (fun c hc => h c (List.mem_cons_of_mem _ hc))

/-- Counterexample to C15 as stated: a store with an access token and its expired
refresh token, every flush operation idempotent and never failing, tokens selected.  The
first run succeeds and removes the refresh token only; the second run with the same
cutoff on the resulting store removes the access token as well, so the store
changes. -/
theorem run_not_idempotent :
    Idempotent orphaning ⟨0⟩ 1000 ∧
      (∀ (c : CleanupCategory) (s : Bool × Bool), (c.flush orphaning ⟨0⟩ 1000 s).2 = none) ∧
      cleanupRun ⟨0⟩ 1000
          (selectRoutines orphaning (withSelectors (bareCommand "") true false false))
          ⟨(true, true), ""⟩ =
        (⟨(true, false),
          "Successfully completed Janitor run on access tokens\nSuccessfully completed Janitor run on refresh tokens\n"⟩,
          none) ∧
      (cleanupRun ⟨0⟩ 1000
          (selectRoutines orphaning (withSelectors (bareCommand "") true false false))
          ⟨(true, false), ""⟩).1.store = (false, false) ∧
      (cleanupRun ⟨0⟩ 1000
          (selectRoutines orphaning (withSelectors (bareCommand "") true false false))
          ⟨(true, false), ""⟩).1.store ≠ (true, false) := by
  refine ⟨?_, ?_, rfl, rfl, by decide⟩
  · intro c s _
    rcases s with ⟨a, b⟩
    cases c <;> cases a <;> cases b <;> rfl
  · intro c s
    cases c <;> rfl

/-- C15, amended (idempotence of a run).  Let each of the four flush operations be
idempotent for the cutoff, and let the categories be independent: a flush operation
that has nothing left to do still has nothing to do after any flush operation has
succeeded.  If executing the selected run on a world succeeds, then executing the same
run with the same cutoff on the resulting world also returns no error and leaves the
store as it is. -/
theorem run_idempotent {σ : Type} (p : Persister σ) (cmd : Command) (ctx : Context)
    (notAfter : Time) (w : World σ)
    (hidem : Idempotent p ctx notAfter) (hind : Independent p ctx notAfter)
    (hfirst : (cleanupRun ctx notAfter (selectRoutines p cmd) w).2 = none) :
    (cleanupRun ctx notAfter (selectRoutines p cmd)
        (cleanupRun ctx notAfter (selectRoutines p cmd) w).1).2 = none ∧
      (cleanupRun ctx notAfter (selectRoutines p cmd)
        (cleanupRun ctx notAfter (selectRoutines p cmd) w).1).1.store =
        (cleanupRun ctx notAfter (selectRoutines p cmd) w).1.store := by
  rw [selectRoutines_eq_map] at hfirst ⊢
  generalize selectedCategories (MustGetBool cmd Tokens) (MustGetBool cmd Requests)
    (MustGetBool cmd GrantTypeJWTBearer) = cs at hfirst ⊢
  cases cs with
  | nil => simp [cleanupRun] at hfirst
  | cons c0 cs0 =>
    have hrun : ∀ w1 : World σ,
        cleanupRun ctx notAfter ((c0 :: cs0).map (CleanupCategory.routine p)) w1 =
          cleanupRunLoop ctx notAfter ((c0 :: cs0).map (CleanupCategory.routine p)) w1 := by
      intro w1
      simp [cleanupRun]
    rw [hrun, loop_categories] at hfirst
    simp only [Option.map_eq_none'] at hfirst
    have hsettled := settled_after_run p ctx notAfter hidem hind (c0 :: cs0) w.store hfirst
    have hsecond := run_of_settled p ctx notAfter (c0 :: cs0)
      (storeAfter p ctx notAfter (c0 :: cs0) w.store) hsettled
    rw [hrun w, loop_categories p ctx notAfter (c0 :: cs0) w]
    rw [hrun, loop_categories]
    simp only [hsecond.1, hsecond.2, Option.map_none']
    exact ⟨trivial, trivial⟩

/-- Witness of C15, amended: four counts of rows, every flush removing the rows of its
own category; all categories selected.  The first run empties the store, the second
run returns no error and leaves it empty. -/
theorem run_idempotent_witness :
    (cleanupRun ⟨0⟩ 1000 (selectRoutines clearing (withSelectors (bareCommand "") true true true))
        (cleanupRun ⟨0⟩ 1000
          (selectRoutines clearing (withSelectors (bareCommand "") true true true))
          ⟨(3, 5, 2, 1), ""⟩).1).2 = none ∧
      (cleanupRun ⟨0⟩ 1000 (selectRoutines clearing (withSelectors (bareCommand "") true true true))
        (cleanupRun ⟨0⟩ 1000
          (selectRoutines clearing (withSelectors (bareCommand "") true true true))
          ⟨(3, 5, 2, 1), ""⟩).1).1.store =
        (cleanupRun ⟨0⟩ 1000
          (selectRoutines clearing (withSelectors (bareCommand "") true true true))
          ⟨(3, 5, 2, 1), ""⟩).1.store :=
  run_idempotent clearing (withSelectors (bareCommand "") true true true) ⟨0⟩ 1000
    ⟨(3, 5, 2, 1), ""⟩
    (by
      intro c s _
      cases c <;> rfl)
    (by
      intro c c1 s hs _
      rcases s with ⟨a, b, d, g⟩
      cases c <;> cases c1 <;>
        simp_all [Settled, CleanupCategory.flush, clearing])
    rfl

/-- An observed flush behaves as the flush itself and notes the call. -/
theorem flush_observing {σ : Type} (p : Persister σ) (c : CleanupCategory) (ctx : Context)
    (na : Time) (s : σ) (log : List FlushCall) :
    c.flush p.observing ctx na (s, log) =
      (((c.flush p ctx na s).1, log ++ [FlushCall.mk c ctx na]), (c.flush p ctx na s).2) := by
  cases c <;> rfl

/-- A run over an observing persister: the store and the first failure are those of the
run itself, and the calls noted are those of the attempted categories, in order, each
with the context and cutoff of the run. -/
theorem run_observing {σ : Type} (p : Persister σ) (ctx : Context) (na : Time) :
    ∀ (cs : List CleanupCategory) (s : σ) (log : List FlushCall),
      storeAfter p.observing ctx na cs (s, log) =
          (storeAfter p ctx na cs s,
            log ++ (attempted p ctx na cs s).map (fun c => FlushCall.mk c ctx na)) ∧
        firstFailure p.observing ctx na cs (s, log) = firstFailure p ctx na cs s := by
  intro cs
  induction cs with
  | nil => intro s log; simp [storeAfter, attempted, firstFailure]
  | cons c cs ih =>
    intro s log
    simp only [storeAfter, firstFailure, attempted, flush_observing]
    rcases c.flush p ctx na s with ⟨s1, oe⟩
    cases oe with
    | none =>
      simp only [ih s1 (log ++ [FlushCall.mk c ctx na]), List.map_cons, List.append_assoc,
        List.singleton_append, and_self]
    | some e => simp

/-- When no flush fails, every category of the run is attempted. -/
theorem attempted_of_no_failure {σ : Type} (p : Persister σ) (ctx : Context) (na : Time) :
    ∀ (cs : List CleanupCategory) (s : σ),
      firstFailure p ctx na cs s = none → attempted p ctx na cs s = cs := by
  intro cs
  induction cs with
  | nil => intro s _; rfl
  | cons c cs ih =>
    intro s h
    simp only [firstFailure] at h
    simp only [attempted]
    rcases hf : c.flush p ctx na s with ⟨s1, oe⟩
    rw [hf] at h
    cases oe with
    | none => simp only [ih s1 h]
    | some e => simp at h

/-- The attempted categories are an initial segment of the run. -/
theorem attempted_prefix {σ : Type} (p : Persister σ) (ctx : Context) (na : Time) :
    ∀ (cs : List CleanupCategory) (s : σ), attempted p ctx na cs s <+: cs := by
  intro cs
  induction cs with
  | nil => intro s; exact List.prefix_refl _
  | cons c cs ih =>
    intro s
    simp only [attempted]
    rcases c.flush p ctx na s with ⟨s1, oe⟩
    cases oe with
    | none => exact (List.prefix_cons_inj c).mpr (ih s1)
    | some e => exact ⟨cs, rfl⟩

/-- Once the options are built, the DSN is not empty and `Init` succeeds, `purge` is the
run of the selected routines from the world `Init` left, with the computed cutoff. -/
theorem purge_reaches_run {σ : Type} (env : Env σ) (cmd : Command) (args : List String)
    (w : World σ) (co : List OptionModifier)
    (hco : configOptions env.keysOrder cmd args = .ok co)
    (hdsn : (resolve env cmd co).DSN.length ≠ 0)
    (hinit : ((resolve env cmd co).Init cmd.Context w.store).2 = none) :
    purge env cmd args w =
      .ok (cleanupRun cmd.Context (cutoff env.now cmd)
        (selectRoutines (resolve env cmd co).Persister cmd)
        { w with store := ((resolve env cmd co).Init cmd.Context w.store).1 }) := by
  rw [purge_eq, hco]
  have hb : ((resolve env cmd co).DSN.length == 0) = false := by simpa using hdsn
  simp only [purgeFrom, hb, Bool.false_eq_true, if_false]
  rcases hi : (resolve env cmd co).Init cmd.Context w.store with ⟨s, oe⟩
  rw [hi] at hinit
  simp only at hinit
  subst hinit
  rfl

/-- The selected run over an observing persister notes the calls of the attempted
categories, in order, each with the context and cutoff of the run; when it returns no
error every selected category was attempted. -/
theorem run_selected_observing {σ : Type} (p : Persister σ) (cmd : Command) (ctx : Context)
    (na : Time) (s0 : σ) (out : String) :
    (cleanupRun ctx na (selectRoutines p.observing cmd) ⟨(s0, []), out⟩).1.store.2 =
        (attempted p ctx na
          (selectedCategories (MustGetBool cmd Tokens) (MustGetBool cmd Requests)
            (MustGetBool cmd GrantTypeJWTBearer)) s0).map (fun c => FlushCall.mk c ctx na) ∧
      ((cleanupRun ctx na (selectRoutines p.observing cmd) ⟨(s0, []), out⟩).2 = none →
        attempted p ctx na
            (selectedCategories (MustGetBool cmd Tokens) (MustGetBool cmd Requests)
              (MustGetBool cmd GrantTypeJWTBearer)) s0 =
          selectedCategories (MustGetBool cmd Tokens) (MustGetBool cmd Requests)
            (MustGetBool cmd GrantTypeJWTBearer)) := by
  rw [selectRoutines_eq_map]
  generalize selectedCategories (MustGetBool cmd Tokens) (MustGetBool cmd Requests)
    (MustGetBool cmd GrantTypeJWTBearer) = cs
  cases cs with
  | nil => simp [cleanupRun, attempted]
  | cons c0 cs0 =>
    have hrun : cleanupRun ctx na ((c0 :: cs0).map (CleanupCategory.routine p.observing))
          ⟨(s0, []), out⟩ =
        cleanupRunLoop ctx na ((c0 :: cs0).map (CleanupCategory.routine p.observing))
          ⟨(s0, []), out⟩ := by
      simp [cleanupRun]
    have hobs := run_observing p ctx na (c0 :: cs0) s0 []
    rw [hrun, loop_categories]
    simp only [hobs.1, hobs.2, List.nil_append, Option.map_eq_none', true_and]
    exact attempted_of_no_failure p ctx na (c0 :: cs0) s0

/-- What an observing persister notes during `purge`: the calls of the attempted
categories of the selected run, in order, each with the command's context and the
computed cutoff; and when `purge` returns no error, every selected category was
attempted. -/
theorem purge_observed {σ : Type} (env : Env σ) (cmd : Command) (args : List String)
    (w : World σ) (co : List OptionModifier)
    (hco : configOptions env.keysOrder cmd args = .ok co)
    (hdsn : (resolve env cmd co).DSN.length ≠ 0)
    (hinit : ((resolve env cmd co).Init cmd.Context w.store).2 = none) :
    ∃ (w1 : World (σ × List FlushCall)) (err : Option GoError),
      purge env.observing cmd args w.unobserved = .ok (w1, err) ∧
        w1.store.2 =
          (attempted (resolve env cmd co).Persister cmd.Context (cutoff env.now cmd)
            (selectedCategories (MustGetBool cmd Tokens) (MustGetBool cmd Requests)
              (MustGetBool cmd GrantTypeJWTBearer))
            ((resolve env cmd co).Init cmd.Context w.store).1).map
            (fun c => FlushCall.mk c cmd.Context (cutoff env.now cmd)) ∧
        (err = none →
          attempted (resolve env cmd co).Persister cmd.Context (cutoff env.now cmd)
              (selectedCategories (MustGetBool cmd Tokens) (MustGetBool cmd Requests)
                (MustGetBool cmd GrantTypeJWTBearer))
              ((resolve env cmd co).Init cmd.Context w.store).1 =
            selectedCategories (MustGetBool cmd Tokens) (MustGetBool cmd Requests)
              (MustGetBool cmd GrantTypeJWTBearer)) := by
  have h := purge_reaches_run env.observing cmd args w.unobserved co hco hdsn hinit
  have hobs := run_selected_observing (resolve env cmd co).Persister cmd cmd.Context
    (cutoff env.now cmd) ((resolve env cmd co).Init cmd.Context w.store).1 w.stdout
  exact ⟨_, _, h, hobs.1, hobs.2⟩

/-- The cutoff computed in `purge` is the retention cutoff, for an `int64` duration. -/
theorem cutoff_retention (now : Time) (cmd : Command)
    (hhi : MustGetDuration cmd KeepIfYounger ≤ maxInt64) :
    cutoff now cmd = retentionCutoff now (MustGetDuration cmd KeepIfYounger) := by
  unfold retentionCutoff
  by_cases hpos : 0 < MustGetDuration cmd KeepIfYounger
  · simp only [cutoff, gt_iff_lt, hpos, if_true, Time.Add, Duration.neg,
      wrapInt64_neg_of_pos _ hpos hhi]
    ring
  · simp only [cutoff, gt_iff_lt, hpos, if_false]

/-- A run over at least one category attempts at least one flush. -/
theorem attempted_ne_nil {σ : Type} (p : Persister σ) (ctx : Context) (na : Time)
    (cs : List CleanupCategory) (s : σ) (hcs : cs ≠ []) : attempted p ctx na cs s ≠ [] := by
  cases cs with
  | nil => exact absurd rfl hcs
  | cons c cs =>
    simp only [attempted]
    rcases c.flush p ctx na s with ⟨s1, oe⟩
    cases oe <;> simp

/-- C3 (order determinism of selection).  Whenever `purge` gets as far as its run (the
options were built, the DSN is not empty, `Init` succeeded), what it returns is
`cleanupRun` applied to the fixed order [access tokens, refresh tokens, login-consent
requests, grant types jwt bearer] restricted to the categories selected by the three
flags, each category standing for its flush operation wrapped under its name; and the
flush operations an observing persister sees `purge` invoke are, in order, an initial
segment of that restriction, all of it when `purge` returns no error.  The restriction
is a sub-list of the fixed order in which both token categories are present iff
`tokens` is set, the request category iff `requests` is set and the grant category iff
`grant-type-jwt-bearer` is set; it is a function of the three flags alone. -/
theorem purge_hands_fixed_order {σ : Type} (env : Env σ) (cmd : Command) (args : List String)
    (w : World σ) :
    (∀ co : List OptionModifier, configOptions env.keysOrder cmd args = .ok co →
        (resolve env cmd co).DSN.length ≠ 0 →
        ((resolve env cmd co).Init cmd.Context w.store).2 = none →
        purge env cmd args w =
            .ok (cleanupRun cmd.Context (cutoff env.now cmd)
              ((selectedCategories (MustGetBool cmd Tokens) (MustGetBool cmd Requests)
                (MustGetBool cmd GrantTypeJWTBearer)).map
                (CleanupCategory.routine (resolve env cmd co).Persister))
              { w with store := ((resolve env cmd co).Init cmd.Context w.store).1 }) ∧
          ∃ (w1 : World (σ × List FlushCall)) (err : Option GoError),
            purge env.observing cmd args w.unobserved = .ok (w1, err) ∧
              w1.store.2.map FlushCall.category <+:
                selectedCategories (MustGetBool cmd Tokens) (MustGetBool cmd Requests)
                  (MustGetBool cmd GrantTypeJWTBearer) ∧
              (err = none →
                w1.store.2.map FlushCall.category =
                  selectedCategories (MustGetBool cmd Tokens) (MustGetBool cmd Requests)
                    (MustGetBool cmd GrantTypeJWTBearer))) ∧
      (∀ p : Persister σ, selectRoutines p cmd =
        (selectedCategories (MustGetBool cmd Tokens) (MustGetBool cmd Requests)
          (MustGetBool cmd GrantTypeJWTBearer)).map (CleanupCategory.routine p)) ∧
      List.Sublist
        (selectedCategories (MustGetBool cmd Tokens) (MustGetBool cmd Requests)
          (MustGetBool cmd GrantTypeJWTBearer)) fixedOrder ∧
      (CleanupCategory.AccessTokens ∈
          selectedCategories (MustGetBool cmd Tokens) (MustGetBool cmd Requests)
            (MustGetBool cmd GrantTypeJWTBearer) ↔ MustGetBool cmd Tokens = true) ∧
      (CleanupCategory.RefreshTokens ∈
          selectedCategories (MustGetBool cmd Tokens) (MustGetBool cmd Requests)
            (MustGetBool cmd GrantTypeJWTBearer) ↔ MustGetBool cmd Tokens = true) ∧
      (CleanupCategory.LoginConsentRequests ∈
          selectedCategories (MustGetBool cmd Tokens) (MustGetBool cmd Requests)
            (MustGetBool cmd GrantTypeJWTBearer) ↔ MustGetBool cmd Requests = true) ∧
      (CleanupCategory.JWTBearerGrants ∈
          selectedCategories (MustGetBool cmd Tokens) (MustGetBool cmd Requests)
            (MustGetBool cmd GrantTypeJWTBearer) ↔
        MustGetBool cmd GrantTypeJWTBearer = true) := by
  refine ⟨?_, fun p => selectRoutines_eq_map p cmd, List.filter_sublist _, ?_⟩
  · intro co hco hdsn hinit
    constructor
    · rw [purge_reaches_run env cmd args w co hco hdsn hinit, selectRoutines_eq_map]
    · obtain ⟨w1, err, hrun, hlog, hall⟩ := purge_observed env cmd args w co hco hdsn hinit
      have hcat : w1.store.2.map FlushCall.category =
          attempted (resolve env cmd co).Persister cmd.Context (cutoff env.now cmd)
            (selectedCategories (MustGetBool cmd Tokens) (MustGetBool cmd Requests)
              (MustGetBool cmd GrantTypeJWTBearer))
            ((resolve env cmd co).Init cmd.Context w.store).1 := by
        rw [hlog, List.map_map]
        exact List.map_id _
      refine ⟨w1, err, hrun, ?_, fun herr => ?_⟩
      · rw [hcat]
        exact attempted_prefix _ _ _ _ _
      · rw [hcat]
        exact hall herr
  · cases MustGetBool cmd Tokens <;> cases MustGetBool cmd Requests <;>
      cases MustGetBool cmd GrantTypeJWTBearer <;> decide

/-- Witness of C3: `janitor --tokens --grant-type-jwt-bearer sqlite` against a store whose
flush operations succeed: the flush operations `purge` invokes are those of access
tokens, refresh tokens and grants, in this order. -/
theorem purge_hands_fixed_order_witness :
    ∃ (w1 : World ((Nat × Nat × Nat × Nat) × List FlushCall)) (err : Option GoError),
      purge clearingEnv.observing (withSelectors (bareCommand "") true false true) ["sqlite"]
          (World.unobserved ⟨(3, 5, 2, 1), ""⟩) = .ok (w1, err) ∧
        w1.store.2.map FlushCall.category <+:
          [CleanupCategory.AccessTokens, CleanupCategory.RefreshTokens,
            CleanupCategory.JWTBearerGrants] ∧
        (err = none →
          w1.store.2.map FlushCall.category =
            [CleanupCategory.AccessTokens, CleanupCategory.RefreshTokens,
              CleanupCategory.JWTBearerGrants]) :=
  ((purge_hands_fixed_order clearingEnv (withSelectors (bareCommand "") true false true)
    ["sqlite"] ⟨(3, 5, 2, 1), ""⟩).1 _ rfl (by decide) rfl).2

/-- C5 (cutoff computation).  Whenever `purge` gets as far as its run (the options were
built, the DSN is not empty, `Init` succeeded) and the keep-if-younger duration `d` is
an `int64`, the cutoff `purge` passes on is `now - d` when `d > 0` and `now` when
`d ≤ 0`: `purge` returns `cleanupRun` applied to that cutoff, and every flush call an
observing persister sees during `purge` carries that cutoff (and the command's
context); at least one such call is seen when a category is selected. -/
theorem purge_cutoff {σ : Type} (env : Env σ) (cmd : Command) (args : List String)
    (w : World σ) (co : List OptionModifier)
    (hco : configOptions env.keysOrder cmd args = .ok co)
    (hdsn : (resolve env cmd co).DSN.length ≠ 0)
    (hinit : ((resolve env cmd co).Init cmd.Context w.store).2 = none)
    (hhi : MustGetDuration cmd KeepIfYounger ≤ maxInt64) :
    purge env cmd args w =
        .ok (cleanupRun cmd.Context
          (retentionCutoff env.now (MustGetDuration cmd KeepIfYounger))
          (selectRoutines (resolve env cmd co).Persister cmd)
          { w with store := ((resolve env cmd co).Init cmd.Context w.store).1 }) ∧
      (∃ (w1 : World (σ × List FlushCall)) (err : Option GoError),
        purge env.observing cmd args w.unobserved = .ok (w1, err) ∧
          (∀ call ∈ w1.store.2,
            call.notAfter = retentionCutoff env.now (MustGetDuration cmd KeepIfYounger) ∧
              call.ctx = cmd.Context) ∧
          (selectedCategories (MustGetBool cmd Tokens) (MustGetBool cmd Requests)
              (MustGetBool cmd GrantTypeJWTBearer) ≠ [] → w1.store.2 ≠ [])) ∧
      (0 < MustGetDuration cmd KeepIfYounger →
        retentionCutoff env.now (MustGetDuration cmd KeepIfYounger) =
          env.now - MustGetDuration cmd KeepIfYounger) ∧
      (MustGetDuration cmd KeepIfYounger ≤ 0 →
        retentionCutoff env.now (MustGetDuration cmd KeepIfYounger) = env.now) := by
  have hcut := cutoff_retention env.now cmd hhi
  refine ⟨?_, ?_, fun hpos => ?_, fun hle => ?_⟩
  · rw [purge_reaches_run env cmd args w co hco hdsn hinit, hcut]
  · obtain ⟨w1, err, hrun, hlog, _⟩ := purge_observed env cmd args w co hco hdsn hinit
    refine ⟨w1, err, hrun, ?_, ?_⟩
    · intro call hcall
      rw [hlog, List.mem_map] at hcall
      obtain ⟨c, _, hc⟩ := hcall
      subst hc
      exact ⟨hcut, rfl⟩
    · intro hcs hnil
      rw [hlog, List.map_eq_nil_iff] at hnil
      exact attempted_ne_nil _ _ _ _ _ hcs hnil
  · simp only [retentionCutoff, hpos, if_true]
  · simp only [retentionCutoff, not_lt.mpr hle, if_false]

/-- Witness of C5: `janitor --tokens --keep-if-younger 300 sqlite` with the clock at
1000: every flush call seen carries the cutoff 700, and there is such a call. -/
theorem purge_cutoff_witness :
    ∃ (w1 : World ((Nat × Nat × Nat × Nat) × List FlushCall)) (err : Option GoError),
      purge clearingEnv.observing
          (withKeepIfYounger (withSelectors (bareCommand "") true false false) 300) ["sqlite"]
          (World.unobserved ⟨(3, 5, 2, 1), ""⟩) = .ok (w1, err) ∧
        (∀ call ∈ w1.store.2, call.notAfter = 700 ∧ call.ctx = ⟨0⟩) ∧
        (selectedCategories true false false ≠ [] → w1.store.2 ≠ []) :=
  (purge_cutoff clearingEnv
    (withKeepIfYounger (withSelectors (bareCommand "") true false false) 300) ["sqlite"]
    ⟨(3, 5, 2, 1), ""⟩ _ rfl (by decide) rfl (by decide)).2.1

/-- The options `purge` builds, member by member, for any order of visiting the map. -/
theorem mem_configOptions (cmd : Command) (args : List String)
    (order : List (String × ConfigKey)) (horder : order.Perm keys) (co : List OptionModifier)
    (hco : configOptions order cmd args = .ok co) (o : OptionModifier) :
    o ∈ co ↔
      o = .WithFlags ∨ o = .SkipValidation ∨
      (0 < MustGetDuration cmd AccessLifespan ∧
        o = .WithValue .KeyAccessTokenLifespan (.duration (MustGetDuration cmd AccessLifespan))) ∨
      (0 < MustGetDuration cmd RefreshLifespan ∧
        o = .WithValue .KeyRefreshTokenLifespan
          (.duration (MustGetDuration cmd RefreshLifespan))) ∨
      (0 < MustGetDuration cmd ConsentRequestLifespan ∧
        o = .WithValue .KeyConsentRequestMaxAge
          (.duration (MustGetDuration cmd ConsentRequestLifespan))) ∨
      (MustGetBool cmd ReadFromEnv = false ∧ MustGetStringSlice cmd Config = [] ∧
        ∃ a : String, args.head? = some a ∧ o = .WithValue .KeyDSN (.string a)) := by
  have hlife := mem_lifespanOptions cmd order horder o
  unfold configOptions at hco
  cases henv : MustGetBool cmd ReadFromEnv with
  | true =>
    simp only [henv, Bool.not_true, Bool.false_and, Bool.false_eq_true, if_false,
      Except.ok.injEq] at hco
    subst hco
    rw [hlife]
    simp
  | false =>
    cases hconf : MustGetStringSlice cmd Config with
    | cons c cs =>
      simp [henv, hconf] at hco
      subst hco
      rw [hlife]
      simp
    | nil =>
      cases args with
      | nil => simp [henv, hconf] at hco
      | cons a rest =>
        simp [henv, hconf] at hco
        subst hco
        rw [List.mem_append, hlife]
        simp only [List.mem_singleton, List.head?_cons, Option.some.injEq, true_and,
          exists_eq_left', or_assoc]

/-- The options are built without a panic when read-from-env is set, a config path is
given, or there is a positional argument. -/
theorem configOptions_ok (cmd : Command) (args : List String) (order : List (String × ConfigKey))
    (hidx : MustGetBool cmd ReadFromEnv = true ∨ MustGetStringSlice cmd Config ≠ [] ∨
      args ≠ []) :
    ∃ co : List OptionModifier, configOptions order cmd args = .ok co := by
  unfold configOptions
  rcases hidx with h | h | h
  · simp [h]
  · cases hc : MustGetStringSlice cmd Config with
    | nil => exact absurd hc h
    | cons c cs => simp
  · cases args with
    | nil => exact absurd rfl h
    | cons a rest =>
      by_cases hcond : (!MustGetBool cmd ReadFromEnv &&
        (MustGetStringSlice cmd Config).length == 0) = true
      · simp only [hcond, if_true]
        exact ⟨_, rfl⟩
      · simp only [hcond, if_false]
        exact ⟨_, rfl⟩

/-- The index expression `args[0]` panics on an empty argument list when it is read. -/
theorem configOptions_panic (cmd : Command) (order : List (String × ConfigKey))
    (henv : MustGetBool cmd ReadFromEnv = false) (hconf : MustGetStringSlice cmd Config = []) :
    configOptions order cmd [] = .error "index out of range [0] with length 0" := by
  simp [configOptions, henv, hconf]

/-- The selector flags play no part in the options. -/
theorem configOptions_withSelectors (cmd : Command) (args : List String)
    (order : List (String × ConfigKey)) (t r g : Bool) :
    configOptions order (withSelectors cmd t r g) args = configOptions order cmd args := by
  have h : MustGetBool (withSelectors cmd t r g) ReadFromEnv = MustGetBool cmd ReadFromEnv := by
    simp [MustGetBool, withSelectors, ReadFromEnv, Tokens, Requests, GrantTypeJWTBearer]
  unfold configOptions
  rw [h]
  rfl

/-- Once the options are built, `purge` hands them to `driver.New` and goes on with the
registry it gets. -/
theorem purge_options {σ : Type} (env : Env σ) (cmd : Command) (args : List String)
    (w : World σ) (co : List OptionModifier)
    (hco : configOptions env.keysOrder cmd args = .ok co) :
    purge env cmd args w =
      .ok (purgeFrom
        (env.New cmd.Context
          [OptionsModifier.DisableValidation, OptionsModifier.DisablePreloading,
            OptionsModifier.WithOptions co])
        (cutoff env.now cmd) cmd w) := by
  rw [purge_eq, hco]
  rfl

/-- A run over the idle persister leaves the store alone. -/
theorem cleanupRun_idle_store {σ : Type} (cmd : Command) (ctx : Context) (na : Time)
    (w : World σ) :
    (cleanupRun ctx na (selectRoutines (idle : Persister σ) cmd) w).1.store = w.store := by
  unfold selectRoutines
  cases MustGetBool cmd Tokens <;> cases MustGetBool cmd Requests <;>
    cases MustGetBool cmd GrantTypeJWTBearer <;> rfl

/-- In the spying surroundings the store after `purge` holds exactly the option list
`driver.New` received. -/
theorem purge_spy (order : List (String × ConfigKey)) (now : Time) (cmd : Command)
    (args : List String) (out : String) (co : List OptionModifier)
    (hco : configOptions order cmd args = .ok co) :
    ∃ (w1 : World (List (List OptionsModifier))) (err : Option GoError),
      purge (spyEnv order now) cmd args ⟨[], out⟩ = .ok (w1, err) ∧
        w1.store =
          [[OptionsModifier.DisableValidation, OptionsModifier.DisablePreloading,
            OptionsModifier.WithOptions co]] := by
  have hdsn : (resolve (spyEnv order now) cmd co).DSN.length ≠ 0 := by
    show "spy".length ≠ 0
    decide
  have h := purge_reaches_run (spyEnv order now) cmd args ⟨[], out⟩ co hco hdsn rfl
  exact ⟨_, _, h, cleanupRun_idle_store cmd _ _ _⟩

/-- C9 (lifespan overrides).  Let the map `keys` be visited in any order and let `purge`
get as far as `driver.New` (read-from-env is set, a config path is given, or there is a
positional argument, so that `args[0]` does not panic).  Then there is one option list
`co` such that `purge` calls `driver.New` with `DisableValidation`, `DisablePreloading`
and `WithOptions co` and goes on with the registry it gets; the spying surroundings
show `driver.New` receiving exactly these options.  In `co` a duration value `x` is
injected under a key exactly when the key is `KeyAccessTokenLifespan`,
`KeyRefreshTokenLifespan` or `KeyConsentRequestMaxAge`, `x` is the duration of the
option belonging to that key (access-lifespan, refresh-lifespan,
consent-request-lifespan) and `x` is strictly positive: nothing is injected for a
duration that is zero or negative.  With any other setting of the selector flags
`purge` passes the same `co`, and with any other order of visiting the map it passes a
list with the same members. -/
theorem purge_injects_lifespans {σ : Type} (env : Env σ) (cmd : Command) (args : List String)
    (w : World σ) (horder : env.keysOrder.Perm keys)
    (hidx : MustGetBool cmd ReadFromEnv = true ∨ MustGetStringSlice cmd Config ≠ [] ∨
      args ≠ []) :
    ∃ co : List OptionModifier,
      purge env cmd args w =
          .ok (purgeFrom
            (env.New cmd.Context
              [OptionsModifier.DisableValidation, OptionsModifier.DisablePreloading,
                OptionsModifier.WithOptions co])
            (cutoff env.now cmd) cmd w) ∧
        (∃ (w1 : World (List (List OptionsModifier))) (err : Option GoError),
          purge (spyEnv env.keysOrder env.now) cmd args ⟨[], w.stdout⟩ = .ok (w1, err) ∧
            w1.store =
              [[OptionsModifier.DisableValidation, OptionsModifier.DisablePreloading,
                OptionsModifier.WithOptions co]]) ∧
        (∀ (key : ConfigKey) (x : Duration),
          OptionModifier.WithValue key (.duration x) ∈ co ↔
            (key = .KeyAccessTokenLifespan ∧ x = MustGetDuration cmd AccessLifespan ∧ 0 < x) ∨
            (key = .KeyRefreshTokenLifespan ∧ x = MustGetDuration cmd RefreshLifespan ∧ 0 < x) ∨
            (key = .KeyConsentRequestMaxAge ∧
              x = MustGetDuration cmd ConsentRequestLifespan ∧ 0 < x)) ∧
        (∀ tokens requests grantTypeJWTBearer : Bool,
          purge env (withSelectors cmd tokens requests grantTypeJWTBearer) args w =
            .ok (purgeFrom
              (env.New cmd.Context
                [OptionsModifier.DisableValidation, OptionsModifier.DisablePreloading,
                  OptionsModifier.WithOptions co])
              (cutoff env.now cmd) (withSelectors cmd tokens requests grantTypeJWTBearer) w)) ∧
        (∀ env1 : Env σ, env1.keysOrder.Perm keys →
          ∃ co1 : List OptionModifier,
            purge env1 cmd args w =
                .ok (purgeFrom
                  (env1.New cmd.Context
                    [OptionsModifier.DisableValidation, OptionsModifier.DisablePreloading,
                      OptionsModifier.WithOptions co1])
                  (cutoff env1.now cmd) cmd w) ∧
              ∀ o : OptionModifier, o ∈ co1 ↔ o ∈ co) := by
  obtain ⟨co, hco⟩ := configOptions_ok cmd args env.keysOrder hidx
  refine ⟨co, purge_options env cmd args w co hco,
    purge_spy env.keysOrder env.now cmd args w.stdout co hco, ?_, ?_, ?_⟩
  · intro key x
    rw [mem_configOptions cmd args env.keysOrder horder co hco]
    simp only [OptionModifier.WithValue.injEq, ConfigValue.duration.injEq, reduceCtorEq,
      false_and, and_false, exists_false, false_or, or_false]
    constructor
    · rintro (⟨h1, h2, h3⟩ | ⟨h1, h2, h3⟩ | ⟨h1, h2, h3⟩)
      · exact Or.inl ⟨h2, h3, h3 ▸ h1⟩
      · exact Or.inr (Or.inl ⟨h2, h3, h3 ▸ h1⟩)
      · exact Or.inr (Or.inr ⟨h2, h3, h3 ▸ h1⟩)
    · rintro (⟨h1, h2, h3⟩ | ⟨h1, h2, h3⟩ | ⟨h1, h2, h3⟩)
      · exact Or.inl ⟨h2 ▸ h3, h1, h2⟩
      · exact Or.inr (Or.inl ⟨h2 ▸ h3, h1, h2⟩)
      · exact Or.inr (Or.inr ⟨h2 ▸ h3, h1, h2⟩)
  · intro t r g
    have hco1 : configOptions env.keysOrder (withSelectors cmd t r g) args = .ok co := by
      rw [configOptions_withSelectors, hco]
    exact purge_options env (withSelectors cmd t r g) args w co hco1
  · intro env1 horder1
    obtain ⟨co1, hco1⟩ := configOptions_ok cmd args env1.keysOrder hidx
    refine ⟨co1, purge_options env1 cmd args w co1 hco1, fun o => ?_⟩
    rw [mem_configOptions cmd args env1.keysOrder horder1 co1 hco1,
      mem_configOptions cmd args env.keysOrder horder co hco]

/-- Witness of C9: access-lifespan 5, refresh-lifespan 0, consent-request-lifespan -3,
the map visited in another order than declared, `sqlite` as positional argument: the
access value is among the options `driver.New` receives, under its key, and neither
the zero nor the negative duration is. -/
theorem purge_injects_lifespans_witness :
    ∃ co : List OptionModifier,
      (∃ (w1 : World (List (List OptionsModifier))) (err : Option GoError),
        purge (spyEnv shuffledKeys 1000) (withLifespans (bareCommand "") 5 0 (-3)) ["sqlite"]
            ⟨[], ""⟩ = .ok (w1, err) ∧
          w1.store =
            [[OptionsModifier.DisableValidation, OptionsModifier.DisablePreloading,
              OptionsModifier.WithOptions co]]) ∧
        OptionModifier.WithValue .KeyAccessTokenLifespan (.duration 5) ∈ co ∧
        OptionModifier.WithValue .KeyRefreshTokenLifespan (.duration 0) ∉ co ∧
        OptionModifier.WithValue .KeyConsentRequestMaxAge (.duration (-3)) ∉ co := by
  have hperm : shuffledKeys.Perm keys := by decide
  obtain ⟨co, _, hspy, hmem, _⟩ :=
    purge_injects_lifespans clearingEnv (withLifespans (bareCommand "") 5 0 (-3)) ["sqlite"]
      ⟨(3, 5, 2, 1), ""⟩ hperm (Or.inr (Or.inr (by decide)))
  refine ⟨co, hspy, (hmem _ _).mpr (Or.inl ⟨rfl, rfl, by decide⟩), fun h => ?_, fun h => ?_⟩
  · have h2 := (hmem _ _).mp h
    revert h2
    decide
  · have h3 := (hmem _ _).mp h
    revert h3
    decide

/-- C17 (the positional-argument index is safe under validation).  Let `Args` return no
error and let the map `keys` be visited in any order.  Then `purge` does not panic: it
calls `driver.New` with `DisableValidation`, `DisablePreloading` and `WithOptions co`
for an option list `co`, which the spying surroundings show `driver.New` receiving.
When read-from-env is unset and no config path is given, so that `purge` reads
`args[0]` (on an empty argument list it panics there), the argument list has a first
element and the one value injected under `KeyDSN` in `co` is exactly that element.
When read-from-env is set or a config path is given, no value is injected under
`KeyDSN`. -/
theorem purge_index_safe {σ τ : Type} (env : Env σ) (cmd : Command) (args : List String)
    (w0 : World τ) (w : World σ)
    (hargs : (Args cmd args w0).2 = none) (horder : env.keysOrder.Perm keys) :
    ∃ co : List OptionModifier,
      purge env cmd args w =
          .ok (purgeFrom
            (env.New cmd.Context
              [OptionsModifier.DisableValidation, OptionsModifier.DisablePreloading,
                OptionsModifier.WithOptions co])
            (cutoff env.now cmd) cmd w) ∧
        (∃ (w1 : World (List (List OptionsModifier))) (err : Option GoError),
          purge (spyEnv env.keysOrder env.now) cmd args ⟨[], w.stdout⟩ = .ok (w1, err) ∧
            w1.store =
              [[OptionsModifier.DisableValidation, OptionsModifier.DisablePreloading,
                OptionsModifier.WithOptions co]]) ∧
        (MustGetBool cmd ReadFromEnv = false ∧ MustGetStringSlice cmd Config = [] →
          (∃ (a : String) (rest : List String), args = a :: rest ∧
            ∀ v : ConfigValue, OptionModifier.WithValue .KeyDSN v ∈ co ↔ v = .string a) ∧
          purge env cmd [] w = .error "index out of range [0] with length 0") ∧
        (MustGetBool cmd ReadFromEnv = true ∨ MustGetStringSlice cmd Config ≠ [] →
          ∀ v : ConfigValue, OptionModifier.WithValue .KeyDSN v ∉ co) := by
  have hloc : args ≠ [] ∨ MustGetBool cmd ReadFromEnv = true ∨
      MustGetStringSlice cmd Config ≠ [] := by
    unfold Args at hargs
    revert hargs
    cases args <;> cases MustGetStringSlice cmd Config <;>
      cases MustGetBool cmd ReadFromEnv <;> cases MustGetBool cmd Tokens <;>
      cases MustGetBool cmd Requests <;> cases MustGetBool cmd GrantTypeJWTBearer <;> simp
  have hidx : MustGetBool cmd ReadFromEnv = true ∨ MustGetStringSlice cmd Config ≠ [] ∨
      args ≠ [] := by
    rcases hloc with h | h | h
    · exact Or.inr (Or.inr h)
    · exact Or.inl h
    · exact Or.inr (Or.inl h)
  obtain ⟨co, hco⟩ := configOptions_ok cmd args env.keysOrder hidx
  have hdsn : ∀ v : ConfigValue, OptionModifier.WithValue .KeyDSN v ∈ co ↔
      MustGetBool cmd ReadFromEnv = false ∧ MustGetStringSlice cmd Config = [] ∧
        ∃ a : String, args.head? = some a ∧ v = .string a := by
    intro v
    rw [mem_configOptions cmd args env.keysOrder horder co hco]
    simp only [OptionModifier.WithValue.injEq, reduceCtorEq, false_and, and_false, false_or,
      true_and]
  refine ⟨co, purge_options env cmd args w co hco,
    purge_spy env.keysOrder env.now cmd args w.stdout co hco, ?_, ?_⟩
  · rintro ⟨henv, hconf⟩
    constructor
    · cases args with
      | nil => simp [henv, hconf] at hloc
      | cons a rest =>
        refine ⟨a, rest, rfl, fun v => ?_⟩
        rw [hdsn v]
        simp [henv, hconf]
    · rw [purge_eq, configOptions_panic cmd env.keysOrder henv hconf]
  · intro h v hmem
    obtain ⟨henv, hconf, _⟩ := (hdsn v).mp hmem
    rcases h with h | h
    · rw [henv] at h
      exact absurd h (by decide)
    · exact h hconf

/-- Witness of C17: `janitor --tokens memory`; `purge` does not panic and the value
that reaches `driver.New` under `KeyDSN` is "memory". -/
theorem purge_index_safe_witness :
    ∃ co : List OptionModifier,
      (∃ (w1 : World (List (List OptionsModifier))) (err : Option GoError),
        purge (spyEnv keys 1000) (withSelectors (bareCommand "") true false false) ["memory"]
            ⟨[], ""⟩ = .ok (w1, err) ∧
          w1.store =
            [[OptionsModifier.DisableValidation, OptionsModifier.DisablePreloading,
              OptionsModifier.WithOptions co]]) ∧
        ∀ v : ConfigValue, OptionModifier.WithValue .KeyDSN v ∈ co ↔ v = .string "memory" := by
  obtain ⟨co, _, hspy, hread, _⟩ :=
    purge_index_safe sampleEnv (withSelectors (bareCommand "") true false false) ["memory"]
      (⟨0, ""⟩ : World Nat) ⟨[], ""⟩ rfl (List.Perm.refl _)
  obtain ⟨⟨a, rest, hargs, hv⟩, _⟩ := hread ⟨rfl, rfl⟩
  have ha : a = "memory" := by
    have h := List.cons.inj hargs
    exact h.1.symm
  subst ha
  exact ⟨co, hspy, hv⟩

end Janitor
